import Mathlib

/-!
Session process supervision: process tracker, recovery, notifications.

A shallow embedding of `src/core/process-tracker.js`, `src/core/recovery.js`
and `src/core/notifications.js`.

* The module-level `tracked` map becomes an insertion-ordered association
  list that is passed explicitly; the singleton Store becomes a value that is
  passed explicitly.
* `process.kill(pid, 0)` becomes a liveness oracle `os : Nat → Bool`
  (`true` when the signal is delivered, `false` when the call throws).
* Process ids are `Option Nat`: `none` is the JavaScript `null`; the falsy
  pids are `none` and `some 0`.
* Wall-clock readings (`new Date()`) are supplied by the caller.
-/

namespace Myrlin

/-! ## Data model -/

/-- Declared status of a session (`idle|running|stopped|error`). -/
inductive Status where
  | idle
  | running
  | stopped
  | error
deriving DecidableEq, Repr

/-- One line of a session log. The time stamp of a line is not modelled. -/
structure LogEntry where
  message : String
deriving DecidableEq, Repr

/-- Session record as the core reads and writes it. -/
structure Session where
  id : String
  name : String
  workspaceId : String
  status : Status
  pid : Option Nat
  logs : List LogEntry
deriving DecidableEq, Repr

/-- Modelled from the spec: the Session Record Store (`src/state/store.js` is
not among the sources). Sessions are kept in listing order, keyed by `id`;
`autoRecover` is `settings.autoRecover`; `logCap` is the bound of a session
log, which the spec states without giving its value. -/
structure Store where
  sessions : List Session
  autoRecover : Bool
  logCap : Nat
deriving DecidableEq, Repr

/-- Modelled from the spec: a bounded log, ordered oldest first, keeps its
newest `cap` lines. -/
def keepNewest (cap : Nat) (logs : List LogEntry) : List LogEntry :=
  logs.drop (logs.length - cap)

/-- Modelled from the spec: `store.getSession(id)`, the session stored under
`id`, if any. -/
def Store.getSession (st : Store) (id : String) : Option Session :=
  st.sessions.find? (fun s => decide (s.id = id))

/-- Modelled from the spec: `store.getAllSessionsList()`, all sessions in
listing order. -/
def Store.getAllSessionsList (st : Store) : List Session :=
  st.sessions

/-- Modelled from the spec: `store.updateSessionStatus(id, status, pid)` sets
the status and pid of the session stored under `id`; nothing happens when
there is none. -/
def Store.updateSessionStatus (st : Store) (id : String) (status : Status)
    (pid : Option Nat) : Store :=
  { st with sessions := st.sessions.map (fun s =>
      if s.id = id then { s with status := status, pid := pid } else s) }

/-- Modelled from the spec: `store.addSessionLog(id, message)` appends one
line at the newest end of the log of the session stored under `id` (the log
is an append-only bounded sequence, oldest first) and keeps the log within
the bound of the Store by dropping the oldest lines; nothing happens when
there is no such session. -/
def Store.addSessionLog (st : Store) (id : String) (message : String) : Store :=
  { st with sessions := st.sessions.map (fun s =>
      if s.id = id then
        { s with logs := keepNewest st.logCap (s.logs ++ [{ message := message }]) }
      else s) }

/-- Well-formed Store: session ids are keys, so they are pairwise distinct. -/
def Store.WF (st : Store) : Prop :=
  (st.sessions.map Session.id).Nodup

instance (st : Store) : Decidable st.WF := by
  unfold Store.WF; infer_instance

/-! ## Process tracker (`process-tracker.js`) -/

/-- Value of the `tracked` map: `{ pid, process, startTime }`. The child
process object is an opaque handle. -/
structure TrackedEntry where
  pid : Option Nat
  process : Option Nat
  startTime : Nat
deriving DecidableEq, Repr

/-- The `tracked` map, as its entries in insertion order. -/
abbrev Tracker := List (String × TrackedEntry)

/-- Well-formed tracker: a `Map` holds each key once. -/
def Tracker.WF (t : Tracker) : Prop :=
  (t.map Prod.fst).Nodup

instance (t : Tracker) : Decidable (Tracker.WF t) := by
  unfold Tracker.WF; infer_instance

/-- Lookup `tracked.get(sessionId)`. -/
def Tracker.get (t : Tracker) (sessionId : String) : Option TrackedEntry :=
  (t.find? (fun kv => decide (kv.1 = sessionId))).map Prod.snd

/-- Update `tracked.set(sessionId, entry)`: an existing key keeps its place and gets
the new value, a new key goes to the end. -/
def Tracker.set (t : Tracker) (sessionId : String) (entry : TrackedEntry) : Tracker :=
  if t.any (fun kv => decide (kv.1 = sessionId)) then
    t.map (fun kv => if kv.1 = sessionId then (sessionId, entry) else kv)
  else
    t ++ [(sessionId, entry)]

/-- Removal `tracked.delete(sessionId)`. -/
def Tracker.delete (t : Tracker) (sessionId : String) : Tracker :=
  t.filter (fun kv => !decide (kv.1 = sessionId))

/-- Function `track(sessionId, pid, childProcess)`; `now` is the reading of `new Date()`. -/
def track (t : Tracker) (now : Nat) (sessionId : String) (pid : Option Nat)
    (childProcess : Option Nat) : Tracker :=
  Tracker.set t sessionId { pid := pid, process := childProcess, startTime := now }

/-- Function `untrack(sessionId)`. -/
def untrack (t : Tracker) (sessionId : String) : Tracker :=
  Tracker.delete t sessionId

/-- The test `!pid` of JavaScript on a process id. -/
def pidFalsy : Option Nat → Bool
  | none => true
  | some 0 => true
  | some _ => false

/-- The probe `process.kill(pid, 0)` inside `try`/`catch`: true when the call
returns, false when it throws; it throws for a pid that is not a number and
for a process the OS does not let the caller signal. -/
def probe (os : Nat → Bool) : Option Nat → Bool
  | none => false
  | some p => os p

/-- Function `isAlive(sessionId)`: false without a probe when there is no entry or the
pid is falsy, else the outcome of `process.kill(entry.pid, 0)`. -/
def isAlive (os : Nat → Bool) (t : Tracker) (sessionId : String) : Bool :=
  match Tracker.get t sessionId with
  | none => false
  | some entry => if pidFalsy entry.pid then false else probe os entry.pid

/-- Text of a process id inside a template literal. -/
def pidText : Option Nat → String
  | none => "null"
  | some p => toString p

/-- The log line written by the sweep for a dead entry. -/
def exitMessage (pid : Option Nat) : String :=
  "Process (PID " ++ pidText pid ++ ") exited unexpectedly"

/-- State threaded through the loop of `checkAll`. -/
structure SweepState where
  tracked : Tracker
  store : Store
  alive : List String
  dead : List String
deriving DecidableEq, Repr

/-- One iteration of the `for` loop of `checkAll`, on the entry
`[sessionId, entry]` handed out by the map iterator. -/
def checkAllStep (os : Nat → Bool) (s : SweepState) (kv : String × TrackedEntry) :
    SweepState :=
  if isAlive os s.tracked kv.1 then
    { s with alive := s.alive ++ [kv.1] }
  else
    let store1 :=
      match s.store.getSession kv.1 with
      | some session =>
        if session.status = Status.running then
          (s.store.updateSessionStatus kv.1 Status.stopped none).addSessionLog kv.1
            (exitMessage kv.2.pid)
        else s.store
      | none => s.store
    { tracked := Tracker.delete s.tracked kv.1,
      store := store1,
      alive := s.alive,
      dead := s.dead ++ [kv.1] }

/-- Function `checkAll()`: the iterator of `tracked.entries()` hands out each entry
present at the start once, in insertion order; only the entry being visited is
ever deleted. -/
def checkAll (os : Nat → Bool) (t : Tracker) (st : Store) : SweepState :=
  t.foldl (checkAllStep os) { tracked := t, store := st, alive := [], dead := [] }

/-- Function `getTrackedSessions()`. -/
def getTrackedSessions (t : Tracker) : List String :=
  t.map Prod.fst

/-! ## Recovery (`recovery.js`) -/

/-- Function `isPidAlive(pid)`. -/
def isPidAlive (os : Nat → Bool) (pid : Option Nat) : Bool :=
  if pidFalsy pid then false else probe os pid

/-- Result of `checkForRecovery()`. -/
structure RecoveryCheck where
  healthy : List Session
  stale : List Session
  total : Nat
deriving DecidableEq, Repr

/-- One iteration of the loop of `checkForRecovery`; the accumulator is
`(healthy, stale)`. -/
def checkForRecoveryStep (os : Nat → Bool) (acc : List Session × List Session)
    (session : Session) : List Session × List Session :=
  if session.status = Status.running then
    if !pidFalsy session.pid && isPidAlive os session.pid then
      (acc.1 ++ [session], acc.2)
    else
      (acc.1, acc.2 ++ [session])
  else acc

/-- Function `checkForRecovery()`. -/
def checkForRecovery (os : Nat → Bool) (st : Store) : RecoveryCheck :=
  let allSessions := st.getAllSessionsList
  let acc := allSessions.foldl (checkForRecoveryStep os) ([], [])
  { healthy := acc.1, stale := acc.2, total := allSessions.length }

/-- The audit line of `markStaleSessionsStopped`. -/
def markedMessage : String :=
  "Marked stopped during recovery (process no longer alive)"

/-- One iteration of the loop of `markStaleSessionsStopped`; the accumulator
is the Store and `markedIds`. -/
def markStaleStep (acc : Store × List String) (session : Session) : Store × List String :=
  ((acc.1.updateSessionStatus session.id Status.stopped none).addSessionLog session.id
      markedMessage,
   acc.2 ++ [session.id])

/-- Function `markStaleSessionsStopped()`: the Store after the call and the returned
`markedIds`. -/
def markStaleSessionsStopped (os : Nat → Bool) (st : Store) : Store × List String :=
  (checkForRecovery os st).stale.foldl markStaleStep (st, [])

/-- What the launcher hands back: `{ success, pid, error }`; `none` is an
absent field. -/
structure LaunchResult where
  success : Bool
  pid : Option Nat
  error : Option String
deriving DecidableEq, Repr

/-- The session manager passed to `recoverSessions`: its
`launchSession(id)` runs against the Store it shares with the core, may write
to it, and returns a result. (`session-manager.js` is not among the sources:
the launcher is a parameter.) -/
abbrev Launcher := Store → String → LaunchResult × Store

/-- Text of `result.pid` inside a template literal. -/
def resultPidText : Option Nat → String
  | none => "undefined"
  | some p => toString p

/-- Text of `result.error` inside a template literal. -/
def resultErrorText : Option String → String
  | none => "undefined"
  | some e => e

/-- Log line of a successful relaunch. -/
def recoveredMessage (pid : Option Nat) : String :=
  "Auto-recovered successfully (new PID: " ++ resultPidText pid ++ ")"

/-- Log line of a failed relaunch. -/
def failedMessage (error : Option String) : String :=
  "Auto-recovery failed: " ++ resultErrorText error

/-- State threaded through the loop of `recoverSessions`. `calls` records, in
order, each invocation of `launchSession` with what it returned; it is not
part of the program state. -/
structure RecoveryState where
  store : Store
  recovered : List String
  failed : List String
  calls : List (String × LaunchResult)
deriving DecidableEq, Repr

/-- One iteration of the relaunch loop of `recoverSessions`. -/
def recoverStep (launchSession : Launcher) (s : RecoveryState) (sessionId : String) :
    RecoveryState :=
  match s.store.getSession sessionId with
  | none => s
  | some _ =>
    let store1 := s.store.addSessionLog sessionId "Auto-recovering session..."
    let out := launchSession store1 sessionId
    if out.1.success then
      { store := out.2.addSessionLog sessionId (recoveredMessage out.1.pid),
        recovered := s.recovered ++ [sessionId],
        failed := s.failed,
        calls := s.calls ++ [(sessionId, out.1)] }
    else
      { store := out.2.addSessionLog sessionId (failedMessage out.1.error),
        recovered := s.recovered,
        failed := s.failed ++ [sessionId],
        calls := s.calls ++ [(sessionId, out.1)] }

/-- Function `recoverSessions(sessionManager)`. -/
def recoverSessions (os : Nat → Bool) (launchSession : Launcher) (st : Store) :
    RecoveryState :=
  if !st.autoRecover then
    { store := st, recovered := [], failed := [], calls := [] }
  else
    let marked := markStaleSessionsStopped os st
    marked.2.foldl (recoverStep launchSession)
      { store := marked.1, recovered := [], failed := [], calls := [] }

/-! ## Notification manager (`notifications.js`) -/

/-- The constant `MAX_QUEUE_SIZE`. -/
def MAX_QUEUE_SIZE : Nat := 50

/-- Severity of a notification. -/
inductive Level where
  | info
  | success
  | warning
  | error
deriving DecidableEq, Repr

/-- Notification record. Ids are JavaScript numbers counting calls; they are
exact integers for every count a run can reach, so they are natural numbers
here. -/
structure Notification where
  id : Nat
  level : Level
  title : String
  message : String
  timestamp : String
deriving DecidableEq, Repr

/-- An event published by the manager through `this.emit`. -/
inductive Emitted where
  | notification (n : Notification)
  | cleared
deriving DecidableEq, Repr

/-- Fields of a `NotificationManager`. `listeners` is the registry of the
underlying event emitter (event name and handler, in subscription order);
`emitted` records the calls of `this.emit` in order and is not part of the
program state. -/
structure NotificationManager where
  queue : List Notification
  nextId : Nat
  storeListenersAttached : Bool
  listeners : List (String × Nat)
  emitted : List Emitted
deriving DecidableEq, Repr

/-- The constructor. -/
def NotificationManager.new : NotificationManager :=
  { queue := [], nextId := 1, storeListenersAttached := false, listeners := [], emitted := [] }

/-- The call `Array.prototype.slice(start)` for an integer `start`: a negative start
counts from the end, and both ends are clamped. -/
def slice {α : Type} (l : List α) (start : Int) : List α :=
  let len : Int := l.length
  let k : Int := if start < 0 then max (len + start) 0 else min start len
  l.drop k.toNat

/-- Method `notify(level, title, message)`: the returned notification and the
manager afterwards; `now` is `new Date().toISOString()`. -/
def NotificationManager.notify (m : NotificationManager) (now : String) (level : Level)
    (title message : String) : Notification × NotificationManager :=
  let notification : Notification :=
    { id := m.nextId, level := level, title := title, message := message, timestamp := now }
  let queue1 := m.queue ++ [notification]
  let queue2 :=
    if queue1.length > MAX_QUEUE_SIZE then slice queue1 (-(MAX_QUEUE_SIZE : Int)) else queue1
  (notification,
   { m with queue := queue2, nextId := m.nextId + 1,
            emitted := m.emitted ++ [Emitted.notification notification] })

/-- Method `getRecent(count = 10)`; `none` is a call without argument. -/
def NotificationManager.getRecent (m : NotificationManager) (count : Option Int) :
    List Notification :=
  slice m.queue (-(count.getD 10))

/-- Method `clear()`. -/
def NotificationManager.clear (m : NotificationManager) : NotificationManager :=
  { m with queue := [], emitted := m.emitted ++ [Emitted.cleared] }

/-- The getter `count`. -/
def NotificationManager.count (m : NotificationManager) : Nat :=
  m.queue.length

/-- Method `destroy()`: `removeAllListeners()` empties the registry of the manager. -/
def NotificationManager.destroy (m : NotificationManager) : NotificationManager :=
  { m with listeners := [], queue := [] }

/-- Arguments of one call of `notify`, with the clock reading. -/
structure NotifyArgs where
  now : String
  level : Level
  title : String
  message : String
deriving DecidableEq, Repr

/-- A call on the public interface of the manager. -/
inductive Op where
  | notify (a : NotifyArgs)
  | getRecent (count : Option Int)
  | clear
  | destroy
deriving DecidableEq, Repr

/-- Run one call; the second component is the notification returned when the
call is `notify`. -/
def NotificationManager.step (m : NotificationManager) : Op →
    NotificationManager × Option Notification
  | Op.notify a => ((m.notify a.now a.level a.title a.message).2,
                    some (m.notify a.now a.level a.title a.message).1)
  | Op.getRecent _ => (m, none)
  | Op.clear => (m.clear, none)
  | Op.destroy => (m.destroy, none)

/-- Run a sequence of calls; the second component lists, in call order, the
notifications returned by the `notify` calls. -/
def NotificationManager.run (m : NotificationManager) : List Op →
    NotificationManager × List Notification
  | [] => (m, [])
  | op :: ops =>
    let r := m.step op
    let rest := NotificationManager.run r.1 ops
    (rest.1, r.2.toList ++ rest.2)

/-- A sequence of `notify` calls, one per element of `args`. -/
def notifyAll (args : List NotifyArgs) : List Op :=
  args.map Op.notify

/-! ## Auxiliary definitions used to describe the sweep -/

/-- Liveness of a tracker entry by its pid alone. -/
def entryAlive (os : Nat → Bool) (kv : String × TrackedEntry) : Bool :=
  if pidFalsy kv.2.pid then false else probe os kv.2.pid

/-- Store write of the sweep for one dead entry (the body of the `else`
branch of `checkAll` that concerns the Store). -/
def repair (st : Store) (kv : String × TrackedEntry) : Store :=
  match st.getSession kv.1 with
  | some session =>
    if session.status = Status.running then
      (st.updateSessionStatus kv.1 Status.stopped none).addSessionLog kv.1
        (exitMessage kv.2.pid)
    else st
  | none => st

/-- Running with a pid that is present and alive: the test that sends a
session to `healthy` in `checkForRecovery`. -/
def isHealthy (os : Nat → Bool) (s : Session) : Bool :=
  decide (s.status = Status.running) && (!pidFalsy s.pid && isPidAlive os s.pid)

/-- Running with a pid that is missing (falsy) or does not exist on the OS. -/
def isStale (os : Nat → Bool) (s : Session) : Bool :=
  decide (s.status = Status.running) && (pidFalsy s.pid || !probe os s.pid)

/-- The two Store writes of `markStaleSessionsStopped` for one session id. -/
def mark (st : Store) (id : String) : Store :=
  (st.updateSessionStatus id Status.stopped none).addSessionLog id markedMessage

/-- Status and pid the Store shows for an id. -/
def statusPid (st : Store) (k : String) : Option (Status × Option Nat) :=
  (st.getSession k).map (fun s => (s.status, s.pid))

/-- The state in which the relaunch loop of `recoverSessions` starts. -/
def recoverInit (os : Nat → Bool) (st : Store) : RecoveryState :=
  { store := (markStaleSessionsStopped os st).1, recovered := [], failed := [], calls := [] }

/-- What the launcher returns when the relaunch loop reaches `k` in state `s`. -/
def launchOut (launchSession : Launcher) (s : RecoveryState) (k : String) :
    LaunchResult × Store :=
  launchSession (s.store.addSessionLog k "Auto-recovering session...") k

/-- The last `c` elements of a list. -/
def lastN {α : Type} (c : Nat) (l : List α) : List α :=
  l.drop (l.length - c)

/-- Whether a call is a `notify`. -/
def Op.isNotify : Op → Bool
  | Op.notify _ => true
  | _ => false

/-! ## The startup scenario of the spec -/

/-- Two running sessions: `S1` with pid 100 and `S2` with pid 200;
auto-recover is on. -/
def scenarioStore : Store :=
  { sessions := [⟨"S1", "one", "w", Status.running, some 100, []⟩,
                 ⟨"S2", "two", "w", Status.running, some 200, []⟩],
    autoRecover := true, logCap := 100 }

/-- Only pid 100 exists on the OS. -/
def scenarioOs : Nat → Bool := fun p => p == 100

/-- A launcher that reports `{ success: true, pid: 9001 }` and writes nothing
to the Store. -/
def replyingLauncher : Launcher :=
  fun st _ => ({ success := true, pid := some 9001, error := none }, st)

/-- A launcher that reports `{ success: true, pid: 9001 }` after setting the
session to running with that pid in the Store. -/
def writingLauncher : Launcher :=
  fun st id => ({ success := true, pid := some 9001, error := none },
                st.updateSessionStatus id Status.running (some 9001))

/-- A launcher that fails for `S2` and succeeds, writing the Store, for every
other id. -/
def mixedLauncher : Launcher :=
  fun st id =>
    if id = "S2" then ({ success := false, pid := none, error := some "spawn failed" }, st)
    else ({ success := true, pid := some 9001, error := none },
          st.updateSessionStatus id Status.running (some 9001))

/-! ## Store events and the listeners of the notification manager -/

/-- Workspace record, as far as the store listeners read it. -/
structure Workspace where
  id : String
  name : String
deriving DecidableEq, Repr

/-- Name of a Store event the manager subscribes to. -/
inductive Topic where
  | sessionCreated
  | sessionUpdated
  | sessionDeleted
  | workspaceCreated
  | workspaceDeleted
  | workspaceActivated
  | error
deriving DecidableEq, Repr

/-- A Store event with its payload: `session:created` and `session:updated`
carry the session, `session:deleted` and `workspace:deleted` carry an id,
`workspace:created` and `workspace:activated` carry the workspace, and `error`
carries `type` and `error`. -/
inductive StoreEvent where
  | sessionCreated (session : Session)
  | sessionUpdated (session : Session)
  | sessionDeleted (id : String)
  | workspaceCreated (workspace : Workspace)
  | workspaceDeleted (id : String)
  | workspaceActivated (workspace : Workspace)
  | error (type : String) (error : String)
deriving DecidableEq, Repr

/-- The event name under which an event is published. -/
def StoreEvent.topic : StoreEvent → Topic
  | StoreEvent.sessionCreated _ => Topic.sessionCreated
  | StoreEvent.sessionUpdated _ => Topic.sessionUpdated
  | StoreEvent.sessionDeleted _ => Topic.sessionDeleted
  | StoreEvent.workspaceCreated _ => Topic.workspaceCreated
  | StoreEvent.workspaceDeleted _ => Topic.workspaceDeleted
  | StoreEvent.workspaceActivated _ => Topic.workspaceActivated
  | StoreEvent.error _ _ => Topic.error

/-- Modelled from the spec: the event-publication point of the Store
(`src/state/store.js` is not among the sources). `handlers` holds, in
subscription order, one entry per `store.on(name, handler)` call made by the
notification manager; the entry is the event name, which determines the
handler. -/
structure StoreBus where
  handlers : List Topic
deriving DecidableEq, Repr

/-- A Store on which nothing has subscribed yet. -/
def StoreBus.empty : StoreBus := { handlers := [] }

/-- Modelled from the spec: `store.on(name, handler)` adds the handler after
those already subscribed. -/
def StoreBus.on (bus : StoreBus) (name : Topic) : StoreBus :=
  { handlers := bus.handlers ++ [name] }

/-- The double quote character as a string. -/
def dq : String := String.singleton (Char.ofNat 34)

/-- The call `id.slice(0, 8)` on a string; ids are ASCII, so code units and
characters coincide. -/
def idPrefix8 (id : String) : String := id.take 8

/-- Handler of `session:created`. -/
def NotificationManager.onSessionCreated (m : NotificationManager) (now : String)
    (session : Session) : NotificationManager :=
  (m.notify now Level.info "Session Created"
    (dq ++ session.name ++ dq ++ " added to workspace")).2

/-- Handler of `session:updated`. -/
def NotificationManager.onSessionUpdated (m : NotificationManager) (now : String)
    (session : Session) : NotificationManager :=
  if session.status = Status.running then
    (m.notify now Level.success "Session Started"
      (dq ++ session.name ++ dq ++ " is now running (PID: " ++ pidText session.pid ++ ")")).2
  else if session.status = Status.stopped then
    (m.notify now Level.info "Session Stopped" (dq ++ session.name ++ dq ++ " has stopped")).2
  else if session.status = Status.error then
    (m.notify now Level.error "Session Error"
      (dq ++ session.name ++ dq ++ " encountered an error")).2
  else m

/-- Handler of `session:deleted`. -/
def NotificationManager.onSessionDeleted (m : NotificationManager) (now : String)
    (id : String) : NotificationManager :=
  (m.notify now Level.warning "Session Deleted"
    ("Session " ++ idPrefix8 id ++ " was removed")).2

/-- Handler of `workspace:created`. -/
def NotificationManager.onWorkspaceCreated (m : NotificationManager) (now : String)
    (workspace : Workspace) : NotificationManager :=
  (m.notify now Level.success "Workspace Created"
    (dq ++ workspace.name ++ dq ++ " workspace is ready")).2

/-- Handler of `workspace:deleted`. -/
def NotificationManager.onWorkspaceDeleted (m : NotificationManager) (now : String)
    (id : String) : NotificationManager :=
  (m.notify now Level.warning "Workspace Deleted"
    ("Workspace " ++ idPrefix8 id ++ " was removed")).2

/-- Handler of `workspace:activated`. -/
def NotificationManager.onWorkspaceActivated (m : NotificationManager) (now : String)
    (workspace : Workspace) : NotificationManager :=
  (m.notify now Level.info "Workspace Switched"
    ("Active workspace: " ++ dq ++ workspace.name ++ dq)).2

/-- Handler of `error`. -/
def NotificationManager.onStoreError (m : NotificationManager) (now : String)
    (type error : String) : NotificationManager :=
  (m.notify now Level.error "Store Error" (type ++ ": " ++ error)).2

/-- One call of the handler that `attachStoreListeners` subscribes under the
name of the event, with the payload of the event. -/
def NotificationManager.callHandler (m : NotificationManager) (now : String) :
    StoreEvent → NotificationManager
  | StoreEvent.sessionCreated session => m.onSessionCreated now session
  | StoreEvent.sessionUpdated session => m.onSessionUpdated now session
  | StoreEvent.sessionDeleted id => m.onSessionDeleted now id
  | StoreEvent.workspaceCreated workspace => m.onWorkspaceCreated now workspace
  | StoreEvent.workspaceDeleted id => m.onWorkspaceDeleted now id
  | StoreEvent.workspaceActivated workspace => m.onWorkspaceActivated now workspace
  | StoreEvent.error type error => m.onStoreError now type error

/-- Method `attachStoreListeners()`: the manager and the Store afterwards. -/
def NotificationManager.attachStoreListeners (m : NotificationManager) (bus : StoreBus) :
    NotificationManager × StoreBus :=
  if m.storeListenersAttached then (m, bus)
  else
    ({ m with storeListenersAttached := true },
     ((((((bus.on Topic.sessionCreated).on Topic.sessionUpdated).on Topic.sessionDeleted).on
       Topic.workspaceCreated).on Topic.workspaceDeleted).on Topic.workspaceActivated).on
       Topic.error)

/-- Modelled from the spec: the Store publishing an event. Every handler
subscribed under the name of the event is called with the payload, in
subscription order; `now` is the clock reading of the notifications made. -/
def StoreBus.emit (bus : StoreBus) (m : NotificationManager) (now : String)
    (ev : StoreEvent) : NotificationManager :=
  (bus.handlers.filter (fun name => decide (name = ev.topic))).foldl
    (fun acc _ => acc.callHandler now ev) m

/-- Call `attachStoreListeners()` `n` times in a row. -/
def attachTimes : Nat → NotificationManager × StoreBus → NotificationManager × StoreBus
  | 0, s => s
  | n + 1, s => attachTimes n (NotificationManager.attachStoreListeners s.1 s.2)

/-- The table of the spec: level and title of the notification synthesized
for a Store event, or `none` where the table has no row. -/
def tableEntry : StoreEvent → Option (Level × String)
  | StoreEvent.sessionCreated _ => some (Level.info, "Session Created")
  | StoreEvent.sessionUpdated session =>
    match session.status with
    | Status.running => some (Level.success, "Session Started")
    | Status.stopped => some (Level.info, "Session Stopped")
    | Status.error => some (Level.error, "Session Error")
    | Status.idle => none
  | StoreEvent.sessionDeleted _ => some (Level.warning, "Session Deleted")
  | StoreEvent.workspaceCreated _ => some (Level.success, "Workspace Created")
  | StoreEvent.workspaceDeleted _ => some (Level.warning, "Workspace Deleted")
  | StoreEvent.workspaceActivated _ => some (Level.info, "Workspace Switched")
  | StoreEvent.error _ _ => some (Level.error, "Store Error")

/-! ## Sequences of tracker calls -/

/-- A call on the tracker: `track`, `untrack`, or a sweep under the OS state
of that moment. -/
inductive TrackerOp where
  | track (now : Nat) (sessionId : String) (pid : Option Nat) (childProcess : Option Nat)
  | untrack (sessionId : String)
  | checkAll (os : Nat → Bool)

/-- Run one tracker call on the tracker and the Store. -/
def applyTrackerOp (s : Tracker × Store) : TrackerOp → Tracker × Store
  | TrackerOp.track now sessionId pid childProcess =>
    (track s.1 now sessionId pid childProcess, s.2)
  | TrackerOp.untrack sessionId => (untrack s.1 sessionId, s.2)
  | TrackerOp.checkAll os => ((checkAll os s.1 s.2).tracked, (checkAll os s.1 s.2).store)

/-- Run a sequence of tracker calls. -/
def runTracker (s : Tracker × Store) (ops : List TrackerOp) : Tracker × Store :=
  ops.foldl applyTrackerOp s

/-- Every tracked id is the id of a session the Store shows as running. -/
def trackedRunning (s : Tracker × Store) : Prop :=
  ∀ id ∈ getTrackedSessions s.1, ∃ sess, s.2.getSession id = some sess ∧
    sess.status = Status.running

/-- Every `track` call of the sequence is made for an id the Store shows as
running at the moment of the call. -/
def tracksRunning : Tracker × Store → List TrackerOp → Prop
  | _, [] => True
  | s, TrackerOp.track now sessionId pid childProcess :: ops =>
    (∃ sess, s.2.getSession sessionId = some sess ∧ sess.status = Status.running) ∧
    tracksRunning (applyTrackerOp s (TrackerOp.track now sessionId pid childProcess)) ops
  | s, op :: ops => tracksRunning (applyTrackerOp s op) ops

/-- The queue invariant: at most `MAX_QUEUE_SIZE` entries, ids strictly
increasing along the queue, and every queued id below the next id. -/
def queueInv (m : NotificationManager) : Prop :=
  m.queue.length ≤ MAX_QUEUE_SIZE ∧
  (m.queue.map Notification.id).Pairwise (fun a b => a < b) ∧
  ∀ n ∈ m.queue, n.id < m.nextId

/-- The arguments of the notification scenario of the spec. -/
def scenarioArgs : NotifyArgs :=
  { now := "2024-01-01T00:00:00.000Z", level := Level.error, title := "Session Error",
    message := "x failed" }

/-- A Store whose only session, `S1`, is stopped. -/
def stoppedStore : Store :=
  { sessions := [⟨"S1", "one", "w", Status.stopped, none, []⟩], autoRecover := false, logCap := 100 }

/-- The seven subscriptions made by `attachStoreListeners`, in order. -/
def attachedTopics : List Topic :=
  [Topic.sessionCreated, Topic.sessionUpdated, Topic.sessionDeleted, Topic.workspaceCreated,
   Topic.workspaceDeleted, Topic.workspaceActivated, Topic.error]

/-! ## Statistics, the health-check timer and the recovery report -/

/-- Result of `getStats()`. -/
structure Stats where
  tracked : Nat
  alive : Nat
  dead : Nat
deriving DecidableEq, Repr

/-- One iteration of the loop of `getStats` over `tracked.keys()`; the
accumulator is `(aliveCount, deadCount)`. -/
def getStatsStep (os : Nat → Bool) (t : Tracker) (acc : Nat × Nat) (sessionId : String) :
    Nat × Nat :=
  if isAlive os t sessionId then (acc.1 + 1, acc.2) else (acc.1, acc.2 + 1)

/-- Function `getStats()`; it reads the tracker and writes nothing. -/
def getStats (os : Nat → Bool) (t : Tracker) : Stats :=
  let acc := (t.map Prod.fst).foldl (getStatsStep os t) (0, 0)
  { tracked := t.length, alive := acc.1, dead := acc.2 }

/-- An interval of the JavaScript runtime: the handle returned by
`setInterval`, its period in milliseconds, and whether `unref()` was called
on it. -/
structure Interval where
  handle : Nat
  period : Nat
  unref : Bool
deriving DecidableEq, Repr

/-- The module variable `healthCheckInterval` (`none` is `null`) together
with the intervals that are active in the runtime and the next fresh handle. -/
structure TimerState where
  healthCheckInterval : Option Nat
  active : List Interval
  nextHandle : Nat
deriving DecidableEq, Repr

/-- State of the module when it is loaded: no interval. -/
def TimerState.init : TimerState :=
  { healthCheckInterval := none, active := [], nextHandle := 0 }

/-- Function `startHealthCheck()`: `setInterval(..., 5000)` makes a new active
interval, on which `unref()` is then called. -/
def startHealthCheck (s : TimerState) : TimerState :=
  match s.healthCheckInterval with
  | some _ => s
  | none =>
    { healthCheckInterval := some s.nextHandle,
      active := s.active ++ [{ handle := s.nextHandle, period := 5000, unref := true }],
      nextHandle := s.nextHandle + 1 }

/-- Function `stopHealthCheck()`: `clearInterval` removes the interval from
the active ones. -/
def stopHealthCheck (s : TimerState) : TimerState :=
  match s.healthCheckInterval with
  | some h =>
    { s with healthCheckInterval := none,
             active := s.active.filter (fun i => !decide (i.handle = h)) }
  | none => s

/-- A call of `startHealthCheck` or `stopHealthCheck`. -/
inductive TimerOp where
  | start
  | stop
deriving DecidableEq, Repr

/-- Run a sequence of timer calls. -/
def runTimer (s : TimerState) (ops : List TimerOp) : TimerState :=
  ops.foldl (fun acc op =>
    match op with
    | TimerOp.start => startHealthCheck acc
    | TimerOp.stop => stopHealthCheck acc) s

/-- The method `String.prototype.includes(sub)`. -/
def includes (s sub : String) : Bool :=
  s.data.tails.any (fun t => sub.data.isPrefixOf t)

/-- The test on a session in `getRecoveryReport`: some log entry has a
non-empty message that includes `Auto-recovered`. -/
def hasRecoveryLog (session : Session) : Bool :=
  session.logs.any (fun l => !decide (l.message = "") && includes l.message "Auto-recovered")

/-- Result of `getRecoveryReport()`. -/
structure RecoveryReport where
  recovered : List Session
  stale : List Session
  healthy : List Session
deriving DecidableEq, Repr

/-- One iteration of the second loop of `getRecoveryReport`. -/
def recoveryReportStep (recovered : List Session) (session : Session) : List Session :=
  if hasRecoveryLog session then recovered ++ [session] else recovered

/-- Function `getRecoveryReport()`. Its first loop has the same body as the
loop of `checkForRecovery`; it reads the Store and writes nothing. -/
def getRecoveryReport (os : Nat → Bool) (st : Store) : RecoveryReport :=
  let allSessions := st.getAllSessionsList
  let acc := allSessions.foldl (checkForRecoveryStep os) ([], [])
  let recovered := acc.1.foldl recoveryReportStep []
  { recovered := recovered, stale := acc.2, healthy := acc.1 }

/-! ## Auxiliary definitions for the ordering and frame claims -/

/-- The pids found dead or missing at entry: those of the stale sessions. -/
def stalePids (os : Nat → Bool) (st : Store) : List (Option Nat) :=
  (checkForRecovery os st).stale.map Session.pid

/-- No session of `cur` is running with a pid that was found dead or missing
in `st` at entry. -/
def noStaleRunning (os : Nat → Bool) (st cur : Store) : Prop :=
  ∀ s ∈ cur.sessions, s.status = Status.running → s.pid ∉ stalePids os st

instance (os : Nat → Bool) (st cur : Store) : Decidable (noStaleRunning os st cur) := by
  unfold noStaleRunning; infer_instance

/-- The Store handed to the launcher when the relaunch loop, having gone
through the ids `pre`, calls it for `id`. -/
def callStore (os : Nat → Bool) (launchSession : Launcher) (st : Store) (pre : List String)
    (id : String) : Store :=
  (pre.foldl (recoverStep launchSession) (recoverInit os st)).store.addSessionLog id
    "Auto-recovering session..."

/-- What `markStaleSessionsStopped` makes of a session: a stale one becomes
stopped with pid null and gets the audit line in its log, which is bounded by
`cap`; any other stays as it is. -/
def markIfStale (os : Nat → Bool) (cap : Nat) (s : Session) : Session :=
  if isStale os s then
    { s with status := Status.stopped, pid := none,
             logs := keepNewest cap (s.logs ++ [{ message := markedMessage }]) }
  else s

/-- Between `before` and `after`, the status and pid shown for an id either
did not change or went from running to stopped with pid null. -/
def onlyStops (before after : Store) : Prop :=
  ∀ k, statusPid after k = statusPid before k ∨
    (∃ p, statusPid before k = some (Status.running, p) ∧
      statusPid after k = some (Status.stopped, none))

/-- A launcher that reports success with pid 200 and sets the session to
running with that pid: the OS has handed out a pid again. -/
def reusingLauncher : Launcher :=
  fun st id => ({ success := true, pid := some 200, error := none },
                st.updateSessionStatus id Status.running (some 200))

/-- Two running sessions whose pids, 200 and 300, do not exist on the OS. -/
def twoStaleStore : Store :=
  { sessions := [⟨"S1", "one", "w", Status.running, some 200, []⟩,
                 ⟨"S2", "two", "w", Status.running, some 300, []⟩],
    autoRecover := true, logCap := 100 }

/-- The timer invariant: either the variable is null and no interval is
active, or it holds the handle of the only active interval, which has period
5000 and is unreferenced. -/
def timerInv (s : TimerState) : Prop :=
  (s.healthCheckInterval = none ∧ s.active = []) ∨
  (∃ h, s.healthCheckInterval = some h ∧
    s.active = [{ handle := h, period := 5000, unref := true }])

/-- The outcome line that the relaunch loop appends for a launch result. -/
def outcomeMessage (r : LaunchResult) : String :=
  if r.success then recoveredMessage r.pid else failedMessage r.error

/-- Three running sessions, none of whose pids exists on the OS. -/
def threeStaleStore : Store :=
  { sessions := [⟨"S1", "one", "w", Status.running, some 100, []⟩,
                 ⟨"S2", "two", "w", Status.running, none, []⟩,
                 ⟨"S3", "three", "w", Status.running, some 300, []⟩],
    autoRecover := true, logCap := 100 }

/-! ## Lemmas on the Store -/

theorem find?_map_id (f : Session → Session) (hf : ∀ s, (f s).id = s.id)
    (l : List Session) (k : String) :
    (l.map f).find? (fun s => decide (s.id = k))
      = (l.find? (fun s => decide (s.id = k))).map f := by
  induction l with
  | nil => rfl
  | cons a l ih =>
    simp only [List.map_cons, List.find?_cons, hf]
    split
    · rfl
    · exact ih

theorem getSession_updateSessionStatus (st : Store) (id k : String) (status : Status)
    (pid : Option Nat) :
    (st.updateSessionStatus id status pid).getSession k
      = (st.getSession k).map (fun s =>
          if s.id = id then { s with status := status, pid := pid } else s) := by
  unfold Store.getSession Store.updateSessionStatus
  apply find?_map_id
  intro s; split <;> rfl

theorem getSession_addSessionLog (st : Store) (id k : String) (msg : String) :
    (st.addSessionLog id msg).getSession k
      = (st.getSession k).map (fun s =>
          if s.id = id then
            { s with logs := keepNewest st.logCap (s.logs ++ [{ message := msg }]) }
          else s) := by
  unfold Store.getSession Store.addSessionLog
  apply find?_map_id
  intro s; split <;> rfl

theorem logCap_updateSessionStatus (st : Store) (id : String) (status : Status)
    (pid : Option Nat) : (st.updateSessionStatus id status pid).logCap = st.logCap := rfl

theorem logCap_addSessionLog (st : Store) (id msg : String) :
    (st.addSessionLog id msg).logCap = st.logCap := rfl

theorem keepNewest_append_one (cap : Nat) (l : List LogEntry) (x : LogEntry) (h : 0 < cap) :
    keepNewest cap (l ++ [x]) = l.drop (l.length + 1 - cap) ++ [x] := by
  unfold keepNewest
  rw [List.length_append, List.length_singleton, List.drop_append_of_le_length]
  omega

theorem keepNewest_last (cap : Nat) (l : List LogEntry) (x : LogEntry) (h : 0 < cap) :
    (keepNewest cap (l ++ [x])).getLast? = some x := by
  rw [keepNewest_append_one cap l x h]
  simp

theorem keepNewest_of_lt (cap : Nat) (l : List LogEntry) (x : LogEntry)
    (h : l.length < cap) : keepNewest cap (l ++ [x]) = l ++ [x] := by
  rw [keepNewest_append_one cap l x (by omega)]
  have : l.length + 1 - cap = 0 := by omega
  rw [this, List.drop_zero]

theorem keepNewest_length (cap : Nat) (l : List LogEntry) :
    (keepNewest cap l).length ≤ cap := by
  unfold keepNewest
  rw [List.length_drop]
  omega

theorem getSession_id (st : Store) (k : String) (s : Session)
    (h : st.getSession k = some s) : s.id = k := by
  unfold Store.getSession at h
  have := List.find?_some h
  simpa using this

theorem getSession_updateSessionStatus_ne (st : Store) (id k : String) (status : Status)
    (pid : Option Nat) (h : k ≠ id) :
    (st.updateSessionStatus id status pid).getSession k = st.getSession k := by
  rw [getSession_updateSessionStatus]
  cases hk : st.getSession k with
  | none => rfl
  | some s =>
    have := getSession_id st k s hk
    simp [this, h]

theorem getSession_addSessionLog_ne (st : Store) (id k : String) (msg : String)
    (h : k ≠ id) :
    (st.addSessionLog id msg).getSession k = st.getSession k := by
  rw [getSession_addSessionLog]
  cases hk : st.getSession k with
  | none => rfl
  | some s =>
    have := getSession_id st k s hk
    simp [this, h]

theorem repair_getSession_ne (st : Store) (kv : String × TrackedEntry) (k : String)
    (h : k ≠ kv.1) : (repair st kv).getSession k = st.getSession k := by
  unfold repair
  split
  · split
    · rw [getSession_addSessionLog_ne _ _ _ _ h, getSession_updateSessionStatus_ne _ _ _ _ _ h]
    · rfl
  · rfl

theorem repair_of_not_running (st : Store) (kv : String × TrackedEntry) (s : Session)
    (hs : st.getSession kv.1 = some s) (hr : s.status ≠ Status.running) :
    repair st kv = st := by
  unfold repair
  rw [hs]
  simp [hr]

theorem repair_logCap (st : Store) (kv : String × TrackedEntry) :
    (repair st kv).logCap = st.logCap := by
  unfold repair
  split
  · split <;> rfl
  · rfl

theorem repair_getSession_running (st : Store) (kv : String × TrackedEntry) (s : Session)
    (hs : st.getSession kv.1 = some s) (hr : s.status = Status.running) :
    (repair st kv).getSession kv.1
      = some { s with status := Status.stopped, pid := none,
                      logs := keepNewest st.logCap
                        (s.logs ++ [{ message := exitMessage kv.2.pid }]) } := by
  unfold repair
  rw [hs]
  have hid := getSession_id st kv.1 s hs
  simp [hr, getSession_addSessionLog, getSession_updateSessionStatus, hs, hid,
    logCap_updateSessionStatus]

/-! ## Lemmas on the tracker and the sweep -/

theorem tracker_get_of_mem (t : Tracker) (h : Tracker.WF t) (kv : String × TrackedEntry)
    (hm : kv ∈ t) : Tracker.get t kv.1 = some kv.2 := by
  induction t with
  | nil => simp at hm
  | cons a t ih =>
    unfold Tracker.WF at h
    rw [List.map_cons, List.nodup_cons] at h
    rcases List.mem_cons.mp hm with rfl | hm
    · simp [Tracker.get]
    · have hne : a.1 ≠ kv.1 := by
        intro heq
        exact h.1 (heq ▸ List.mem_map_of_mem Prod.fst hm)
      have := ih h.2 hm
      simp only [Tracker.get, List.find?_cons] at this ⊢
      simp [hne, this]

theorem tracker_mem_of_get (t : Tracker) (k : String) (e : TrackedEntry)
    (h : Tracker.get t k = some e) : (k, e) ∈ t := by
  unfold Tracker.get at h
  rcases hf : t.find? (fun kv => decide (kv.1 = k)) with _ | kv
  · simp [hf] at h
  · rw [hf] at h
    have h1 := List.find?_some hf
    have h2 := List.mem_of_find?_eq_some hf
    simp at h h1
    rcases kv with ⟨a, b⟩
    simp at h h1
    subst h h1
    exact h2

theorem tracker_delete_mid (pre l : Tracker) (kv : String × TrackedEntry)
    (h : Tracker.WF (pre ++ kv :: l)) : Tracker.delete (pre ++ kv :: l) kv.1 = pre ++ l := by
  unfold Tracker.WF at h
  rw [List.map_append, List.map_cons] at h
  have h1 := List.nodup_append.mp h
  have hl : ∀ x ∈ l, x.1 ≠ kv.1 := by
    intro x hx heq
    have := (List.nodup_cons.mp h1.2.1).1
    exact this (heq ▸ List.mem_map_of_mem Prod.fst hx)
  have hp : ∀ x ∈ pre, x.1 ≠ kv.1 := by
    intro x hx heq
    exact h1.2.2 (List.mem_map_of_mem Prod.fst hx) (by rw [heq]; simp)
  unfold Tracker.delete
  rw [List.filter_append, List.filter_cons]
  simp only [decide_True, Bool.not_true, Bool.false_eq_true, if_false]
  congr 1
  · apply List.filter_eq_self.mpr
    intro x hx
    simp [hp x hx]
  · apply List.filter_eq_self.mpr
    intro x hx
    simp [hl x hx]

theorem wf_drop_mid (pre l : Tracker) (kv : String × TrackedEntry)
    (h : Tracker.WF (pre ++ kv :: l)) : Tracker.WF (pre ++ l) := by
  unfold Tracker.WF at h ⊢
  refine h.sublist ?_
  apply List.Sublist.map
  exact List.Sublist.append (List.Sublist.refl pre) (List.sublist_cons_self kv l)

theorem checkAllStep_eq (os : Nat → Bool) (s : SweepState) (kv : String × TrackedEntry) :
    checkAllStep os s kv =
      if isAlive os s.tracked kv.1 then { s with alive := s.alive ++ [kv.1] }
      else { tracked := Tracker.delete s.tracked kv.1, store := repair s.store kv,
             alive := s.alive, dead := s.dead ++ [kv.1] } := by
  unfold checkAllStep repair
  rfl

theorem sweep_fold (os : Nat → Bool) : ∀ (l pre : Tracker) (st : Store) (a d : List String),
    Tracker.WF (pre ++ l) →
    l.foldl (checkAllStep os) { tracked := pre ++ l, store := st, alive := a, dead := d } =
      { tracked := pre ++ l.filter (entryAlive os),
        store := (l.filter (fun kv => !entryAlive os kv)).foldl repair st,
        alive := a ++ (l.filter (entryAlive os)).map Prod.fst,
        dead := d ++ (l.filter (fun kv => !entryAlive os kv)).map Prod.fst } := by
  intro l
  induction l with
  | nil => intro pre st a d _; simp
  | cons kv l ih =>
    intro pre st a d h
    have hget : Tracker.get (pre ++ kv :: l) kv.1 = some kv.2 :=
      tracker_get_of_mem _ h kv (by simp)
    have halive : isAlive os (pre ++ kv :: l) kv.1 = entryAlive os kv := by
      unfold isAlive entryAlive
      rw [hget]
    rw [List.foldl_cons, checkAllStep_eq]
    simp only [halive]
    cases hk : entryAlive os kv with
    | true =>
      have h2 : Tracker.WF ((pre ++ [kv]) ++ l) := by simpa using h
      have := ih (pre ++ [kv]) st (a ++ [kv.1]) d h2
      simp only [List.append_assoc, List.singleton_append] at this
      simp [this, hk, List.filter_cons]
    | false =>
      have := ih pre (repair st kv) a (d ++ [kv.1]) (wf_drop_mid pre l kv h)
      simp [tracker_delete_mid pre l kv h, this, hk, List.filter_cons]

theorem checkAll_eq (os : Nat → Bool) (t : Tracker) (st : Store) (h : Tracker.WF t) :
    checkAll os t st =
      { tracked := t.filter (entryAlive os),
        store := (t.filter (fun kv => !entryAlive os kv)).foldl repair st,
        alive := (t.filter (entryAlive os)).map Prod.fst,
        dead := (t.filter (fun kv => !entryAlive os kv)).map Prod.fst } := by
  have := sweep_fold os t [] st [] [] (by simpa using h)
  simpa [checkAll] using this

theorem wf_filter (t : Tracker) (p : String × TrackedEntry → Bool) (h : Tracker.WF t) :
    Tracker.WF (t.filter p) := by
  unfold Tracker.WF at h ⊢
  exact h.sublist (List.Sublist.map _ (List.filter_sublist t))

theorem isAlive_eq_entryAlive (os : Nat → Bool) (t : Tracker) (h : Tracker.WF t)
    (kv : String × TrackedEntry) (hm : kv ∈ t) : isAlive os t kv.1 = entryAlive os kv := by
  unfold isAlive entryAlive
  rw [tracker_get_of_mem t h kv hm]

theorem keys_filter_alive (os : Nat → Bool) (t : Tracker) (h : Tracker.WF t) :
    (t.filter (entryAlive os)).map Prod.fst
      = (getTrackedSessions t).filter (isAlive os t) := by
  unfold getTrackedSessions
  rw [List.filter_map]
  congr 1
  apply List.filter_congr
  intro kv hm
  simp [isAlive_eq_entryAlive os t h kv hm]

theorem keys_filter_dead (os : Nat → Bool) (t : Tracker) (h : Tracker.WF t) :
    (t.filter (fun kv => !entryAlive os kv)).map Prod.fst
      = (getTrackedSessions t).filter (fun id => !isAlive os t id) := by
  unfold getTrackedSessions
  rw [List.filter_map]
  congr 1
  apply List.filter_congr
  intro kv hm
  simp [isAlive_eq_entryAlive os t h kv hm]

theorem foldl_repair_other (l : Tracker) (st : Store) (k : String)
    (hk : k ∉ l.map Prod.fst) : (l.foldl repair st).getSession k = st.getSession k := by
  induction l generalizing st with
  | nil => rfl
  | cons kv l ih =>
    rw [List.map_cons, List.mem_cons, not_or] at hk
    rw [List.foldl_cons, ih _ hk.2, repair_getSession_ne _ _ _ hk.1]

theorem foldl_repair_running (l : Tracker) (h : Tracker.WF l) (st : Store)
    (kv : String × TrackedEntry) (hm : kv ∈ l) (s : Session)
    (hs : st.getSession kv.1 = some s) (hr : s.status = Status.running) :
    (l.foldl repair st).getSession kv.1
      = some { s with status := Status.stopped, pid := none,
                      logs := keepNewest st.logCap
                        (s.logs ++ [{ message := exitMessage kv.2.pid }]) } := by
  induction l generalizing st with
  | nil => simp at hm
  | cons a l ih =>
    unfold Tracker.WF at h
    rw [List.map_cons, List.nodup_cons] at h
    rw [List.foldl_cons]
    rcases List.mem_cons.mp hm with rfl | hm
    · rw [foldl_repair_other l _ _ h.1]
      exact repair_getSession_running st kv s hs hr
    · have hne : kv.1 ≠ a.1 := by
        intro heq
        exact h.1 (heq ▸ List.mem_map_of_mem Prod.fst hm)
      have hstep := ih h.2 (repair st a) hm (by
        rw [repair_getSession_ne _ _ _ hne]
        exact hs)
      rw [repair_logCap] at hstep
      exact hstep

theorem sweep_keeps_not_running (os : Nat → Bool) (id : String) (sess : Session)
    (hst : sess.status ≠ Status.running) :
    ∀ (l : Tracker) (s : SweepState), s.store.getSession id = some sess →
      (l.foldl (checkAllStep os) s).store.getSession id = some sess := by
  intro l
  induction l with
  | nil => intro s hs; exact hs
  | cons kv l ih =>
    intro s hs
    rw [List.foldl_cons]
    apply ih
    rw [checkAllStep_eq]
    split
    · exact hs
    · show (repair s.store kv).getSession id = some sess
      by_cases hk : id = kv.1
      · subst hk
        rw [repair_of_not_running s.store kv sess hs hst]
        exact hs
      · rw [repair_getSession_ne _ _ _ hk]
        exact hs

theorem toString_infix_exitMessage (p : Nat) :
    (toString p).data <:+: (exitMessage (some p)).data := by
  refine ⟨"Process (PID ".data, ") exited unexpectedly".data, ?_⟩
  simp [exitMessage, pidText, String.data_append]

/-! ## The claims on the sweep -/

/-- C1. Idempotent sweep: a second `checkAll()` under the same OS state
returns an empty `dead` list and changes neither the tracker nor the Store. -/
theorem checkAll_idempotent (os : Nat → Bool) (t : Tracker) (st : Store)
    (h : Tracker.WF t) :
    (checkAll os (checkAll os t st).tracked (checkAll os t st).store).dead = [] ∧
    (checkAll os (checkAll os t st).tracked (checkAll os t st).store).tracked
      = (checkAll os t st).tracked ∧
    (checkAll os (checkAll os t st).tracked (checkAll os t st).store).store
      = (checkAll os t st).store := by
  rw [checkAll_eq os t st h]
  simp only
  rw [checkAll_eq os _ _ (wf_filter t _ h)]
  simp [List.filter_filter]

/-- Witness for C1: two tracked sessions, one alive and one dead. -/
theorem checkAll_idempotent_witness :
    Tracker.WF [("a", ⟨some 7, none, 0⟩), ("b", ⟨some 4242, none, 1⟩)] ∧
    (checkAll (fun p => p == 7)
      (checkAll (fun p => p == 7) [("a", ⟨some 7, none, 0⟩), ("b", ⟨some 4242, none, 1⟩)]
        ⟨[⟨"b", "B", "w", Status.running, some 4242, []⟩], true, 100⟩).tracked
      (checkAll (fun p => p == 7) [("a", ⟨some 7, none, 0⟩), ("b", ⟨some 4242, none, 1⟩)]
        ⟨[⟨"b", "B", "w", Status.running, some 4242, []⟩], true, 100⟩).store).dead = [] :=
  ⟨by decide, (checkAll_idempotent _ _ _ (by decide)).1⟩

/-- C2. No downgrade: a session whose Store status is stopped, error or idle
is left exactly as it was by `checkAll()` (status, pid and logs), whatever the
tracker holds for its id. -/
theorem checkAll_no_downgrade (os : Nat → Bool) (t : Tracker) (st : Store) (id : String)
    (sess : Session) (hget : st.getSession id = some sess)
    (hst : sess.status = Status.stopped ∨ sess.status = Status.error ∨
      sess.status = Status.idle) :
    (checkAll os t st).store.getSession id = some sess := by
  have hne : sess.status ≠ Status.running := by
    rcases hst with h | h | h <;> rw [h] <;> decide
  exact sweep_keeps_not_running os id sess hne t _ hget

/-- Witness for C2: a stopped session that is still tracked with a dead pid. -/
theorem checkAll_no_downgrade_witness :
    (checkAll (fun _ => false) [("b", ⟨some 4242, none, 1⟩)]
      ⟨[⟨"b", "B", "w", Status.stopped, some 4242, []⟩], true, 100⟩).store.getSession "b"
      = some ⟨"b", "B", "w", Status.stopped, some 4242, []⟩ :=
  checkAll_no_downgrade _ _ _ "b" _ (by decide) (Or.inl rfl)

/-- C3. Sweep repair: a session tracked with pid `p`, with Store status
running, whose pid does not exist on the OS, is shown by the Store after
`checkAll()` as stopped with pid null; exactly one entry has been added to its
log, whose message contains the decimal `p` (the log is the old log with that
entry appended, cut to the bound of the Store: with a positive bound the entry
is the newest one and what precedes it is the old log without the lines that
no longer fit, and the whole old log while it is not full); and the tracker
has no entry for the session. -/
theorem checkAll_repairs_dead (os : Nat → Bool) (t : Tracker) (st : Store)
    (h : Tracker.WF t) (id : String) (e : TrackedEntry) (p : Nat) (sess : Session)
    (htr : Tracker.get t id = some e) (hpid : e.pid = some p) (hos : os p = false)
    (hget : st.getSession id = some sess) (hrun : sess.status = Status.running) :
    (checkAll os t st).store.getSession id
      = some { sess with status := Status.stopped, pid := none,
                         logs := (keepNewest st.logCap
                           (sess.logs ++ [{ message := exitMessage (some p) }])) } ∧
    (0 < st.logCap →
      keepNewest st.logCap (sess.logs ++ [{ message := exitMessage (some p) }])
        = sess.logs.drop (sess.logs.length + 1 - st.logCap)
            ++ [{ message := exitMessage (some p) }]) ∧
    (sess.logs.length < st.logCap →
      keepNewest st.logCap (sess.logs ++ [{ message := exitMessage (some p) }])
        = sess.logs ++ [{ message := exitMessage (some p) }]) ∧
    exitMessage (some p) = "Process (PID " ++ toString p ++ ") exited unexpectedly" ∧
    (toString p).data <:+: (exitMessage (some p)).data ∧
    Tracker.get (checkAll os t st).tracked id = none ∧
    id ∉ getTrackedSessions (checkAll os t st).tracked ∧
    id ∈ (checkAll os t st).dead := by
  have hm : (id, e) ∈ t := tracker_mem_of_get t id e htr
  have hdead : entryAlive os (id, e) = false := by
    unfold entryAlive
    simp [hpid, probe, hos]
  have hmd : (id, e) ∈ t.filter (fun kv => !entryAlive os kv) := by
    simp [List.mem_filter, hm, hdead]
  have hnot : id ∉ (t.filter (entryAlive os)).map Prod.fst := by
    intro hin
    rcases List.mem_map.mp hin with ⟨kv, hkv, hk⟩
    have hkv2 := List.mem_filter.mp hkv
    have hg := tracker_get_of_mem t h kv hkv2.1
    rw [hk, htr] at hg
    have : kv = (id, e) := by
      rcases kv with ⟨a, b⟩
      simp at hk hg
      simp [hk, hg]
    rw [this, hdead] at hkv2
    simp at hkv2
  have hmain : (checkAll os t st).store.getSession id
      = some { sess with status := Status.stopped, pid := none,
                         logs := keepNewest st.logCap
                           (sess.logs ++ [{ message := exitMessage (some p) }]) } := by
    rw [checkAll_eq os t st h]
    have := foldl_repair_running _ (wf_filter t _ h) st (id, e) hmd sess hget hrun
    simpa [hpid] using this
  refine ⟨hmain, fun hcap => keepNewest_append_one _ _ _ hcap,
    fun hlt => keepNewest_of_lt _ _ _ hlt, rfl, toString_infix_exitMessage p, ?_⟩
  rw [checkAll_eq os t st h]
  refine ⟨?_, hnot, ?_⟩
  · cases hg : Tracker.get (t.filter (entryAlive os)) id with
    | none => rfl
    | some e2 =>
      exact absurd (List.mem_map_of_mem Prod.fst (tracker_mem_of_get _ id e2 hg)) hnot
  · exact List.mem_map_of_mem Prod.fst hmd

/-- Witness for C3: `S1` running with pid 4242, which does not exist on the
OS; its log is full, with the bound 2. -/
theorem checkAll_repairs_dead_witness :
    (checkAll (fun _ => false) [("S1", ⟨some 4242, none, 0⟩)]
      ⟨[⟨"S1", "one", "w", Status.running, some 4242, [⟨"first"⟩, ⟨"second"⟩]⟩], false,
        2⟩).store.getSession "S1"
      = some ⟨"S1", "one", "w", Status.stopped, none,
          [⟨"second"⟩, ⟨"Process (PID 4242) exited unexpectedly"⟩]⟩ ∧
    "4242".data <:+: "Process (PID 4242) exited unexpectedly".data ∧
    getTrackedSessions (checkAll (fun _ => false) [("S1", ⟨some 4242, none, 0⟩)]
      ⟨[⟨"S1", "one", "w", Status.running, some 4242, [⟨"first"⟩, ⟨"second"⟩]⟩], false,
        2⟩).tracked = [] := by
  have h := checkAll_repairs_dead (fun _ => false) [("S1", ⟨some 4242, none, 0⟩)]
    ⟨[⟨"S1", "one", "w", Status.running, some 4242, [⟨"first"⟩, ⟨"second"⟩]⟩], false, 2⟩
    (by decide) "S1" ⟨some 4242, none, 0⟩ 4242
    ⟨"S1", "one", "w", Status.running, some 4242, [⟨"first"⟩, ⟨"second"⟩]⟩
    (by decide) rfl rfl (by decide) rfl
  refine ⟨?_, ?_, by decide⟩
  · rw [h.1]; decide
  · have := h.2.2.2.2.1
    simpa [exitMessage, pidText] using this

/-- C4. Sweep partition: `alive` and `dead` are disjoint, together they are
the ids tracked before the call, each once; `alive` holds exactly the ids for
which `isAlive` was true and `dead` the others, both in insertion order; and
`getTrackedSessions()` after the call equals `alive`. -/
theorem checkAll_partition (os : Nat → Bool) (t : Tracker) (st : Store)
    (h : Tracker.WF t) :
    (checkAll os t st).alive = (getTrackedSessions t).filter (isAlive os t) ∧
    (checkAll os t st).dead = (getTrackedSessions t).filter (fun id => !isAlive os t id) ∧
    List.Disjoint (checkAll os t st).alive (checkAll os t st).dead ∧
    ((checkAll os t st).alive ++ (checkAll os t st).dead).Perm (getTrackedSessions t) ∧
    (checkAll os t st).alive.Sublist (getTrackedSessions t) ∧
    (checkAll os t st).dead.Sublist (getTrackedSessions t) ∧
    getTrackedSessions (checkAll os t st).tracked = (checkAll os t st).alive := by
  have ha : (checkAll os t st).alive = (getTrackedSessions t).filter (isAlive os t) := by
    rw [checkAll_eq os t st h]; exact keys_filter_alive os t h
  have hd : (checkAll os t st).dead
      = (getTrackedSessions t).filter (fun id => !isAlive os t id) := by
    rw [checkAll_eq os t st h]; exact keys_filter_dead os t h
  have htr : getTrackedSessions (checkAll os t st).tracked = (checkAll os t st).alive := by
    rw [checkAll_eq os t st h]; rfl
  refine ⟨ha, hd, ?_, ?_, ?_, ?_, htr⟩
  · rw [ha, hd]
    intro x hx hy
    have h1 := (List.mem_filter.mp hx).2
    have h2 := (List.mem_filter.mp hy).2
    simp [h1] at h2
  · rw [ha, hd]
    exact List.filter_append_perm _ _
  · rw [ha]; exact List.filter_sublist _
  · rw [hd]; exact List.filter_sublist _

/-- Witness for C4: three tracked sessions, the middle one dead. -/
theorem checkAll_partition_witness :
    (checkAll (fun p => p == 7) [("a", ⟨some 7, none, 0⟩), ("b", ⟨some 4242, none, 1⟩),
        ("c", ⟨some 7, none, 2⟩)] ⟨[], false, 100⟩).alive = ["a", "c"] ∧
    (checkAll (fun p => p == 7) [("a", ⟨some 7, none, 0⟩), ("b", ⟨some 4242, none, 1⟩),
        ("c", ⟨some 7, none, 2⟩)] ⟨[], false, 100⟩).dead = ["b"] := by
  have h := checkAll_partition (fun p => p == 7) [("a", ⟨some 7, none, 0⟩),
    ("b", ⟨some 4242, none, 1⟩), ("c", ⟨some 7, none, 2⟩)] ⟨[], false, 100⟩ (by decide)
  refine ⟨?_, ?_⟩
  · rw [h.1]; decide
  · rw [h.2.1]; decide

/-! ## Lemmas on recovery -/

theorem getSession_of_mem (st : Store) (h : st.WF) (s : Session) (hm : s ∈ st.sessions) :
    st.getSession s.id = some s := by
  unfold Store.WF at h
  unfold Store.getSession
  generalize st.sessions = l at h hm
  induction l with
  | nil => simp at hm
  | cons a l ih =>
    rw [List.map_cons, List.nodup_cons] at h
    rcases List.mem_cons.mp hm with rfl | hm
    · simp
    · have hne : a.id ≠ s.id := by
        intro heq
        exact h.1 (heq ▸ List.mem_map_of_mem Session.id hm)
      simp only [List.find?_cons]
      simp [hne, ih h.2 hm]

theorem checkForRecovery_fold (os : Nat → Bool) (l : List Session) :
    ∀ acc : List Session × List Session,
      l.foldl (checkForRecoveryStep os) acc
        = (acc.1 ++ l.filter (isHealthy os), acc.2 ++ l.filter (isStale os)) := by
  induction l with
  | nil => intro acc; simp
  | cons a l ih =>
    intro acc
    rw [List.foldl_cons, ih]
    unfold checkForRecoveryStep isHealthy isStale isPidAlive
    by_cases hr : a.status = Status.running
    · cases hf : pidFalsy a.pid <;> cases hp : probe os a.pid <;>
        simp [hr, hf, hp, List.filter_cons]
    · simp [hr, List.filter_cons]

theorem checkForRecovery_eq (os : Nat → Bool) (st : Store) :
    checkForRecovery os st
      = { healthy := st.sessions.filter (isHealthy os),
          stale := st.sessions.filter (isStale os),
          total := st.sessions.length } := by
  unfold checkForRecovery Store.getAllSessionsList
  simp [checkForRecovery_fold]

theorem markStale_fold (l : List Session) : ∀ acc : Store × List String,
    l.foldl markStaleStep acc
      = (l.foldl (fun st s => mark st s.id) acc.1, acc.2 ++ l.map Session.id) := by
  induction l with
  | nil => intro acc; simp
  | cons a l ih =>
    intro acc
    rw [List.foldl_cons, ih]
    simp [markStaleStep, mark]

theorem markStaleSessionsStopped_eq (os : Nat → Bool) (st : Store) :
    markStaleSessionsStopped os st
      = ((st.sessions.filter (isStale os)).foldl (fun st s => mark st s.id) st,
         (st.sessions.filter (isStale os)).map Session.id) := by
  unfold markStaleSessionsStopped
  rw [checkForRecovery_eq, markStale_fold]
  simp

theorem mark_getSession_ne (st : Store) (id k : String) (h : k ≠ id) :
    (mark st id).getSession k = st.getSession k := by
  unfold mark
  rw [getSession_addSessionLog_ne _ _ _ _ h, getSession_updateSessionStatus_ne _ _ _ _ _ h]

theorem mark_logCap (st : Store) (id : String) : (mark st id).logCap = st.logCap := rfl

theorem mark_getSession_self (st : Store) (s : Session) (hs : st.getSession s.id = some s) :
    (mark st s.id).getSession s.id
      = some { s with status := Status.stopped, pid := none,
                      logs := keepNewest st.logCap
                        (s.logs ++ [{ message := markedMessage }]) } := by
  unfold mark
  simp [getSession_addSessionLog, getSession_updateSessionStatus, hs,
    logCap_updateSessionStatus]

theorem foldl_mark_other (l : List Session) (st : Store) (k : String)
    (hk : k ∉ l.map Session.id) :
    (l.foldl (fun st s => mark st s.id) st).getSession k = st.getSession k := by
  induction l generalizing st with
  | nil => rfl
  | cons a l ih =>
    rw [List.map_cons, List.mem_cons, not_or] at hk
    rw [List.foldl_cons, ih _ hk.2, mark_getSession_ne _ _ _ hk.1]

theorem foldl_mark_self (l : List Session) (hl : (l.map Session.id).Nodup) (st : Store)
    (s : Session) (hm : s ∈ l) (hs : st.getSession s.id = some s) :
    (l.foldl (fun st s => mark st s.id) st).getSession s.id
      = some { s with status := Status.stopped, pid := none,
                      logs := keepNewest st.logCap
                        (s.logs ++ [{ message := markedMessage }]) } := by
  induction l generalizing st with
  | nil => simp at hm
  | cons a l ih =>
    rw [List.map_cons, List.nodup_cons] at hl
    rw [List.foldl_cons]
    rcases List.mem_cons.mp hm with rfl | hm
    · rw [foldl_mark_other l _ _ hl.1]
      exact mark_getSession_self st s hs
    · have hne : s.id ≠ a.id := by
        intro heq
        exact hl.1 (heq ▸ List.mem_map_of_mem Session.id hm)
      have hstep := ih hl.2 (mark st a.id) hm (by
        rw [mark_getSession_ne _ _ _ hne]
        exact hs)
      rw [mark_logCap] at hstep
      exact hstep

theorem stale_ids_nodup (os : Nat → Bool) (st : Store) (h : st.WF) :
    ((st.sessions.filter (isStale os)).map Session.id).Nodup := by
  unfold Store.WF at h
  exact h.sublist (List.Sublist.map _ (List.filter_sublist _))

theorem statusPid_addSessionLog (st : Store) (id msg k : String) :
    statusPid (st.addSessionLog id msg) k = statusPid st k := by
  unfold statusPid
  rw [getSession_addSessionLog]
  cases st.getSession k with
  | none => rfl
  | some s => by_cases h : s.id = id <;> simp [h]

theorem isSome_addSessionLog (st : Store) (id msg k : String) :
    ((st.addSessionLog id msg).getSession k).isSome = (st.getSession k).isSome := by
  rw [getSession_addSessionLog]
  cases st.getSession k <;> rfl

theorem recoverStep_none (launchSession : Launcher) (s : RecoveryState) (k : String)
    (h : s.store.getSession k = none) : recoverStep launchSession s k = s := by
  unfold recoverStep
  rw [h]

theorem recoverStep_some (launchSession : Launcher) (s : RecoveryState) (k : String)
    (h : (s.store.getSession k).isSome = true) :
    recoverStep launchSession s k =
      { store := (launchOut launchSession s k).2.addSessionLog k
          (if (launchOut launchSession s k).1.success
            then recoveredMessage (launchOut launchSession s k).1.pid
            else failedMessage (launchOut launchSession s k).1.error),
        recovered := s.recovered ++ (if (launchOut launchSession s k).1.success then [k] else []),
        failed := s.failed ++ (if (launchOut launchSession s k).1.success then [] else [k]),
        calls := s.calls ++ [(k, (launchOut launchSession s k).1)] } := by
  unfold recoverStep launchOut
  cases hg : s.store.getSession k with
  | none => simp [hg] at h
  | some x =>
    simp only
    split <;> simp

theorem recover_fold_calls (launchSession : Launcher) (l : List String) :
    ∀ s0 : RecoveryState, ∃ new : List (String × LaunchResult),
      (l.foldl (recoverStep launchSession) s0).calls = s0.calls ++ new ∧
      (l.foldl (recoverStep launchSession) s0).recovered
        = s0.recovered ++ (new.filter (fun c => c.2.success)).map Prod.fst ∧
      (l.foldl (recoverStep launchSession) s0).failed
        = s0.failed ++ (new.filter (fun c => !c.2.success)).map Prod.fst ∧
      (new.map Prod.fst).Sublist l := by
  induction l with
  | nil => intro s0; exact ⟨[], by simp⟩
  | cons k l ih =>
    intro s0
    rw [List.foldl_cons]
    obtain ⟨new, h1, h2, h3, h4⟩ := ih (recoverStep launchSession s0 k)
    cases hg : s0.store.getSession k with
    | none =>
      rw [recoverStep_none _ _ _ hg] at h1 h2 h3 ⊢
      exact ⟨new, h1, h2, h3, h4.trans (List.sublist_cons_self k l)⟩
    | some x =>
      have hs : (s0.store.getSession k).isSome = true := by simp [hg]
      rw [h1, h2, h3, recoverStep_some _ _ _ hs]
      refine ⟨(k, (launchOut launchSession s0 k).1) :: new, ?_, ?_, ?_, ?_⟩
      · simp
      · cases hsx : (launchOut launchSession s0 k).1.success <;>
          simp [hsx, List.filter_cons]
      · cases hsx : (launchOut launchSession s0 k).1.success <;>
          simp [hsx, List.filter_cons]
      · simpa using h4.cons₂ k

theorem recoverSessions_on (os : Nat → Bool) (launchSession : Launcher) (st : Store)
    (h : st.autoRecover = true) :
    recoverSessions os launchSession st
      = ((st.sessions.filter (isStale os)).map Session.id).foldl (recoverStep launchSession)
          (recoverInit os st) := by
  unfold recoverSessions recoverInit
  simp [h, markStaleSessionsStopped_eq]

theorem recover_fold_frame (launchSession : Launcher)
    (hframe : ∀ st0 id k, k ≠ id → statusPid (launchSession st0 id).2 k = statusPid st0 k)
    (l : List String) : ∀ (s0 : RecoveryState) (k : String), k ∉ l →
      statusPid (l.foldl (recoverStep launchSession) s0).store k = statusPid s0.store k := by
  induction l with
  | nil => intro s0 k _; rfl
  | cons a l ih =>
    intro s0 k hk
    rw [List.mem_cons, not_or] at hk
    rw [List.foldl_cons, ih _ k hk.2]
    cases hg : s0.store.getSession a with
    | none => rw [recoverStep_none _ _ _ hg]
    | some x =>
      rw [recoverStep_some _ _ _ (by simp [hg])]
      simp only [statusPid_addSessionLog]
      unfold launchOut
      rw [hframe _ _ _ hk.1, statusPid_addSessionLog]

theorem recover_fold_shows (launchSession : Launcher)
    (hwrite : ∀ st0 id, (st0.getSession id).isSome = true →
      (launchSession st0 id).1.success = true →
      statusPid (launchSession st0 id).2 id
        = some (Status.running, (launchSession st0 id).1.pid))
    (hframe : ∀ st0 id k, k ≠ id → statusPid (launchSession st0 id).2 k = statusPid st0 k)
    (l : List String) : ∀ (s0 : RecoveryState), l.Nodup → ∀ (id : String) (r : LaunchResult),
      (id, r) ∈ (l.foldl (recoverStep launchSession) s0).calls →
      (id, r) ∈ s0.calls ∨ (r.success = true →
        statusPid (l.foldl (recoverStep launchSession) s0).store id
          = some (Status.running, r.pid)) := by
  induction l with
  | nil => intro s0 _ id r h; exact Or.inl h
  | cons a l ih =>
    intro s0 hnd id r h
    rw [List.nodup_cons] at hnd
    rw [List.foldl_cons] at h ⊢
    rcases ih _ hnd.2 id r h with h1 | h1
    · cases hg : s0.store.getSession a with
      | none =>
        rw [recoverStep_none _ _ _ hg] at h1
        exact Or.inl h1
      | some x =>
        have hsome : (s0.store.getSession a).isSome = true := by simp [hg]
        rw [recoverStep_some _ _ _ hsome] at h1 ⊢
        simp only [List.mem_append, List.mem_singleton, Prod.mk.injEq] at h1
        rcases h1 with h1 | ⟨rfl, rfl⟩
        · exact Or.inl h1
        · right
          intro hs
          rw [recover_fold_frame launchSession hframe l _ id hnd.1]
          simp only [statusPid_addSessionLog]
          unfold launchOut at hs ⊢
          apply hwrite _ _ _ hs
          rw [isSome_addSessionLog]
          exact hsome
    · exact Or.inr h1

theorem eq_of_nodup_fst {α β : Type} (l : List (α × β)) (h : (l.map Prod.fst).Nodup)
    (a : α) (b c : β) (hb : (a, b) ∈ l) (hc : (a, c) ∈ l) : b = c := by
  induction l with
  | nil => simp at hb
  | cons x l ih =>
    rw [List.map_cons, List.nodup_cons] at h
    rcases List.mem_cons.mp hb with hb | hb <;> rcases List.mem_cons.mp hc with hc | hc
    · rw [← hb] at hc
      exact (Prod.mk.inj hc).2.symm
    · exact absurd (List.mem_map_of_mem Prod.fst hc) (by rw [← hb] at h; exact h.1)
    · exact absurd (List.mem_map_of_mem Prod.fst hb) (by rw [← hc] at h; exact h.1)
    · exact ih h.2 hb hc

theorem recoverInit_isSome (os : Nat → Bool) (st : Store) (h : st.WF) (k : String)
    (hk : k ∈ (st.sessions.filter (isStale os)).map Session.id) :
    ((recoverInit os st).store.getSession k).isSome = true := by
  unfold recoverInit
  rw [markStaleSessionsStopped_eq]
  rcases List.mem_map.mp hk with ⟨s, hs, rfl⟩
  have hm := (List.mem_filter.mp hs).1
  simp only
  rw [foldl_mark_self _ (stale_ids_nodup os st h) st s hs (getSession_of_mem st h s hm)]
  rfl

theorem recover_fold_all (launchSession : Launcher)
    (hkeep : ∀ st0 id k, (st0.getSession k).isSome = true →
      ((launchSession st0 id).2.getSession k).isSome = true)
    (l : List String) : ∀ (s0 : RecoveryState),
      (∀ k ∈ l, (s0.store.getSession k).isSome = true) →
      (l.foldl (recoverStep launchSession) s0).calls.map Prod.fst
        = s0.calls.map Prod.fst ++ l := by
  induction l with
  | nil => intro s0 _; simp
  | cons a l ih =>
    intro s0 h
    have ha := h a (List.mem_cons_self a l)
    rw [List.foldl_cons, ih]
    · rw [recoverStep_some _ _ _ ha]
      simp
    · intro k hk
      rw [recoverStep_some _ _ _ ha]
      simp only [isSome_addSessionLog]
      unfold launchOut
      apply hkeep
      rw [isSome_addSessionLog]
      exact h k (List.mem_cons_of_mem a hk)

theorem recover_fold_turn (launchSession : Launcher) (s0 : RecoveryState)
    (hs0 : s0.calls = []) (pre post : List String) (id : String)
    (hnd : (pre ++ id :: post).Nodup) :
    id ∈ ((pre ++ id :: post).foldl (recoverStep launchSession) s0).calls.map Prod.fst ↔
      ((pre.foldl (recoverStep launchSession) s0).store.getSession id).isSome = true := by
  rw [List.foldl_append, List.foldl_cons]
  obtain ⟨newp, hp1, _, _, hp4⟩ := recover_fold_calls launchSession pre s0
  obtain ⟨newq, hq1, _, _, hq4⟩ := recover_fold_calls launchSession post
    (recoverStep launchSession (pre.foldl (recoverStep launchSession) s0) id)
  have hnd2 := List.nodup_append.mp hnd
  have hpre : id ∉ newp.map Prod.fst := by
    intro hin
    exact hnd2.2.2 (hp4.subset hin) (List.mem_cons_self id post)
  have hpost : id ∉ newq.map Prod.fst := by
    intro hin
    exact (List.nodup_cons.mp hnd2.2.1).1 (hq4.subset hin)
  rw [hq1]
  cases hg : (pre.foldl (recoverStep launchSession) s0).store.getSession id with
  | none =>
    rw [recoverStep_none _ _ _ hg, hp1, hs0]
    simp only [List.nil_append, List.map_append, List.mem_append, Option.isSome_none]
    constructor
    · rintro (h | h)
      · exact absurd h hpre
      · exact absurd h hpost
    · intro h; simp at h
  | some x =>
    rw [recoverStep_some _ _ _ (by simp [hg])]
    simp

/-! ## The claims on recovery -/

/-- C5. Recovery completeness: after `markStaleSessionsStopped()` every session
that was running with a missing (falsy) pid or a pid that does not exist on
the OS is stopped with pid null and has had one entry added to its log, the
audit line (the log is the old log with that line appended, cut to the bound
of the Store: with a positive bound the audit line is the newest entry and
what precedes it is the old log without the lines that no longer fit, and the
whole old log while it is not full); the returned list is the ids of exactly
those sessions, in Store listing order. -/
theorem markStaleSessionsStopped_complete (os : Nat → Bool) (st : Store) (h : st.WF) :
    (markStaleSessionsStopped os st).2
      = (st.getAllSessionsList.filter (fun s =>
          decide (s.status = Status.running) && (pidFalsy s.pid || !probe os s.pid))).map
          Session.id ∧
    ∀ s ∈ st.getAllSessionsList, s.status = Status.running →
      (pidFalsy s.pid = true ∨ probe os s.pid = false) →
      (markStaleSessionsStopped os st).1.getSession s.id
        = some { s with status := Status.stopped, pid := none,
                        logs := (keepNewest st.logCap
                          (s.logs ++ [{ message := markedMessage }])) } ∧
      (0 < st.logCap →
        keepNewest st.logCap (s.logs ++ [{ message := markedMessage }])
          = s.logs.drop (s.logs.length + 1 - st.logCap) ++ [{ message := markedMessage }]) ∧
      (s.logs.length < st.logCap →
        keepNewest st.logCap (s.logs ++ [{ message := markedMessage }])
          = s.logs ++ [{ message := markedMessage }]) := by
  rw [markStaleSessionsStopped_eq]
  refine ⟨rfl, ?_⟩
  intro s hm hr hp
  have hst : s ∈ st.sessions.filter (isStale os) := by
    refine List.mem_filter.mpr ⟨hm, ?_⟩
    unfold isStale
    rcases hp with hp | hp <;> simp [hr, hp]
  have hmain := foldl_mark_self _ (stale_ids_nodup os st h) st s hst
    (getSession_of_mem st h s hm)
  exact ⟨hmain, fun hcap => keepNewest_append_one _ _ _ hcap,
    fun hlt => keepNewest_of_lt _ _ _ hlt⟩

/-- Witness for C5: one healthy session, one with a dead pid and a full log
(the bound is 2), one without pid. -/
theorem markStaleSessionsStopped_complete_witness :
    (markStaleSessionsStopped (fun p => p == 7)
      ⟨[⟨"a", "A", "w", Status.running, some 7, []⟩,
        ⟨"b", "B", "w", Status.running, some 4242, [⟨"first"⟩, ⟨"second"⟩]⟩,
        ⟨"c", "C", "w", Status.running, none, []⟩], false, 2⟩).2 = ["b", "c"] ∧
    (markStaleSessionsStopped (fun p => p == 7)
      ⟨[⟨"a", "A", "w", Status.running, some 7, []⟩,
        ⟨"b", "B", "w", Status.running, some 4242, [⟨"first"⟩, ⟨"second"⟩]⟩,
        ⟨"c", "C", "w", Status.running, none, []⟩], false, 2⟩).1.getSession "b"
      = some ⟨"b", "B", "w", Status.stopped, none, [⟨"second"⟩, ⟨markedMessage⟩]⟩ := by
  have h := markStaleSessionsStopped_complete (fun p => p == 7)
      ⟨[⟨"a", "A", "w", Status.running, some 7, []⟩,
        ⟨"b", "B", "w", Status.running, some 4242, [⟨"first"⟩, ⟨"second"⟩]⟩,
        ⟨"c", "C", "w", Status.running, none, []⟩], false, 2⟩ (by decide)
  refine ⟨?_, ?_⟩
  · rw [h.1]; decide
  · have h2 := (h.2 ⟨"b", "B", "w", Status.running, some 4242, [⟨"first"⟩, ⟨"second"⟩]⟩
      (by decide) rfl (Or.inr (by decide))).1
    rw [h2]
    decide

/-- C6. Recovery respects policy: with `settings.autoRecover` false,
`recoverSessions` returns empty `recovered` and `failed`, never calls the
launcher and leaves the Store as it was. -/
theorem recoverSessions_policy_off (os : Nat → Bool) (launchSession : Launcher)
    (st : Store) (h : st.autoRecover = false) :
    (recoverSessions os launchSession st).recovered = [] ∧
    (recoverSessions os launchSession st).failed = [] ∧
    (recoverSessions os launchSession st).calls = [] ∧
    (recoverSessions os launchSession st).store = st := by
  unfold recoverSessions
  simp [h]

/-- Witness for C6: two stale sessions and a launcher that would succeed. -/
theorem recoverSessions_policy_off_witness :
    (recoverSessions (fun _ => false)
      (fun st id => (⟨true, some 9001, none⟩, st.updateSessionStatus id Status.running
        (some 9001)))
      ⟨[⟨"a", "A", "w", Status.running, some 7, []⟩,
        ⟨"b", "B", "w", Status.running, none, []⟩], false, 100⟩).calls = [] :=
  (recoverSessions_policy_off _ _ _ rfl).2.2.1

/-- C7, as stated, fails: in the scenario of the spec with a launcher that
only reports `{ success: true, pid: 9001 }`, `S2` is stale, is launched once and
lands in `recovered`, yet the Store shows it stopped with pid null. -/
theorem recoverSessions_success_not_running :
    (checkForRecovery scenarioOs scenarioStore).healthy.map Session.id = ["S1"] ∧
    (checkForRecovery scenarioOs scenarioStore).stale.map Session.id = ["S2"] ∧
    (recoverSessions scenarioOs replyingLauncher scenarioStore).calls
      = [("S2", { success := true, pid := some 9001, error := none })] ∧
    (recoverSessions scenarioOs replyingLauncher scenarioStore).recovered = ["S2"] ∧
    (recoverSessions scenarioOs replyingLauncher scenarioStore).failed = [] ∧
    statusPid (recoverSessions scenarioOs replyingLauncher scenarioStore).store "S2"
      = some (Status.stopped, none) ∧
    statusPid (recoverSessions scenarioOs replyingLauncher scenarioStore).store "S2"
      ≠ some (Status.running, some 9001) := by
  decide

/-- C7, amended. With auto-recover on, let the launcher, whenever it reports
success for a session, leave that session running with the reported pid in the
Store, and let it leave status and pid of every other session alone. Then each
stale session whose launch reported success with pid `p` is shown by the Store
as running with pid `p` after `recoverSessions`, and its id is in `recovered`
and not in `failed`. -/
theorem recoverSessions_success_running (os : Nat → Bool) (launchSession : Launcher)
    (st : Store) (hauto : st.autoRecover = true) (hwf : st.WF)
    (hwrite : ∀ st0 id, (st0.getSession id).isSome = true →
      (launchSession st0 id).1.success = true →
      statusPid (launchSession st0 id).2 id
        = some (Status.running, (launchSession st0 id).1.pid))
    (hframe : ∀ st0 id k, k ≠ id → statusPid (launchSession st0 id).2 k = statusPid st0 k)
    (id : String) (r : LaunchResult)
    (hcall : (id, r) ∈ (recoverSessions os launchSession st).calls)
    (hsucc : r.success = true) :
    id ∈ (checkForRecovery os st).stale.map Session.id ∧
    statusPid (recoverSessions os launchSession st).store id = some (Status.running, r.pid) ∧
    id ∈ (recoverSessions os launchSession st).recovered ∧
    id ∉ (recoverSessions os launchSession st).failed := by
  rw [recoverSessions_on os launchSession st hauto] at hcall ⊢
  rw [checkForRecovery_eq]
  have hnd := stale_ids_nodup os st hwf
  obtain ⟨new, h1, h2, h3, h4⟩ := recover_fold_calls launchSession
    ((st.sessions.filter (isStale os)).map Session.id) (recoverInit os st)
  have hc0 : (recoverInit os st).calls = [] := rfl
  have hr0 : (recoverInit os st).recovered = [] := rfl
  have hf0 : (recoverInit os st).failed = [] := rfl
  rw [hc0, List.nil_append] at h1
  rw [hr0, List.nil_append] at h2
  rw [hf0, List.nil_append] at h3
  have hnew : (id, r) ∈ new := h1 ▸ hcall
  refine ⟨h4.subset (List.mem_map_of_mem Prod.fst hnew), ?_, ?_, ?_⟩
  · rcases recover_fold_shows launchSession hwrite hframe _ _ hnd id r hcall with h | h
    · rw [hc0] at h; simp at h
    · exact h hsucc
  · rw [h2]
    exact List.mem_map.mpr ⟨(id, r), List.mem_filter.mpr ⟨hnew, hsucc⟩, rfl⟩
  · rw [h3]
    intro hin
    rcases List.mem_map.mp hin with ⟨c, hc, hcid⟩
    have hc2 := List.mem_filter.mp hc
    rcases c with ⟨a, b⟩
    simp only at hcid
    subst hcid
    have := eq_of_nodup_fst new (hnd.sublist h4) a b r hc2.1 hnew
    subst this
    simp [hsucc] at hc2

/-- Witness for C7 (amended): the scenario of the spec with a launcher that
writes the Store; `S2` ends up running with pid 9001. -/
theorem recoverSessions_success_running_witness :
    statusPid (recoverSessions scenarioOs writingLauncher scenarioStore).store "S2"
      = some (Status.running, some 9001) ∧
    "S2" ∈ (recoverSessions scenarioOs writingLauncher scenarioStore).recovered ∧
    "S2" ∉ (recoverSessions scenarioOs writingLauncher scenarioStore).failed :=
  (recoverSessions_success_running scenarioOs writingLauncher scenarioStore rfl (by decide)
    (by
      intro st0 id hsome _
      unfold writingLauncher statusPid
      rw [getSession_updateSessionStatus]
      cases hg : st0.getSession id with
      | none => simp [hg] at hsome
      | some s => simp [getSession_id st0 id s hg])
    (by
      intro st0 id k hk
      unfold writingLauncher statusPid
      rw [getSession_updateSessionStatus_ne _ _ _ _ _ hk])
    "S2" { success := true, pid := some 9001, error := none } (by decide) rfl).2

/-- C8. Exactly-once relaunch: with auto-recover on, the launcher is invoked
only for ids that `checkForRecovery` reported stale at entry, in stale-list
order and at most once each; a stale id is launched exactly when its session
exists in the Store as its turn comes, so every stale id is launched once when
the launcher removes no session; `recovered` and `failed` are disjoint,
together they are the launched ids, and an id is in `recovered` exactly when
its launch reported success. -/
theorem recoverSessions_exactly_once (os : Nat → Bool) (launchSession : Launcher)
    (st : Store) (hauto : st.autoRecover = true) (hwf : st.WF) :
    ((recoverSessions os launchSession st).calls.map Prod.fst).Sublist
      ((checkForRecovery os st).stale.map Session.id) ∧
    ((recoverSessions os launchSession st).calls.map Prod.fst).Nodup ∧
    (∀ pre id post, (checkForRecovery os st).stale.map Session.id = pre ++ id :: post →
      (id ∈ (recoverSessions os launchSession st).calls.map Prod.fst ↔
        ((pre.foldl (recoverStep launchSession) (recoverInit os st)).store.getSession
          id).isSome = true)) ∧
    ((∀ st0 id k, (st0.getSession k).isSome = true →
        ((launchSession st0 id).2.getSession k).isSome = true) →
      (recoverSessions os launchSession st).calls.map Prod.fst
        = (checkForRecovery os st).stale.map Session.id) ∧
    (recoverSessions os launchSession st).recovered
      = ((recoverSessions os launchSession st).calls.filter (fun c => c.2.success)).map
          Prod.fst ∧
    (recoverSessions os launchSession st).failed
      = ((recoverSessions os launchSession st).calls.filter (fun c => !c.2.success)).map
          Prod.fst ∧
    List.Disjoint (recoverSessions os launchSession st).recovered
      (recoverSessions os launchSession st).failed ∧
    ((recoverSessions os launchSession st).recovered ++
      (recoverSessions os launchSession st).failed).Perm
      ((recoverSessions os launchSession st).calls.map Prod.fst) ∧
    (∀ id, id ∈ (recoverSessions os launchSession st).recovered ↔
      ∃ res, (id, res) ∈ (recoverSessions os launchSession st).calls ∧ res.success = true) := by
  rw [recoverSessions_on os launchSession st hauto, checkForRecovery_eq]
  simp only
  have hnd := stale_ids_nodup os st hwf
  obtain ⟨new, h1, h2, h3, h4⟩ := recover_fold_calls launchSession
    ((st.sessions.filter (isStale os)).map Session.id) (recoverInit os st)
  have hc0 : (recoverInit os st).calls = [] := rfl
  have hr0 : (recoverInit os st).recovered = [] := rfl
  have hf0 : (recoverInit os st).failed = [] := rfl
  rw [hc0, List.nil_append] at h1
  rw [hr0, List.nil_append] at h2
  rw [hf0, List.nil_append] at h3
  have hnew : (new.map Prod.fst).Nodup := hnd.sublist h4
  refine ⟨h1 ▸ h4, h1 ▸ hnew, ?_, ?_, ?_, ?_, ?_, ?_, ?_⟩
  · intro pre id post hsplit
    rw [hsplit]
    exact recover_fold_turn launchSession _ hc0 pre post id (hsplit ▸ hnd)
  · intro hkeep
    rw [recover_fold_all launchSession hkeep _ _ (fun k hk => recoverInit_isSome os st hwf k hk),
      hc0]
    rfl
  · rw [h2, h1]
  · rw [h3, h1]
  · rw [h2, h3]
    intro x hx hy
    rcases List.mem_map.mp hx with ⟨c, hc, hcx⟩
    rcases List.mem_map.mp hy with ⟨d, hd, hdx⟩
    have hc2 := List.mem_filter.mp hc
    have hd2 := List.mem_filter.mp hd
    rcases c with ⟨a, b⟩
    rcases d with ⟨a2, b2⟩
    simp only at hcx hdx
    have hb : (x, b) ∈ new := hcx ▸ hc2.1
    have hb2 : (x, b2) ∈ new := hdx ▸ hd2.1
    have := eq_of_nodup_fst new hnew x b b2 hb hb2
    subst this
    have h5 := hc2.2
    have h6 := hd2.2
    simp only at h5 h6
    rw [h5] at h6
    simp at h6
  · rw [h2, h3, h1, ← List.map_append]
    exact (List.filter_append_perm _ new).map Prod.fst
  · intro id
    rw [h2, h1]
    constructor
    · intro hin
      rcases List.mem_map.mp hin with ⟨c, hc, hcid⟩
      have hc2 := List.mem_filter.mp hc
      rcases c with ⟨a, b⟩
      simp only at hcid
      subst hcid
      exact ⟨b, hc2.1, hc2.2⟩
    · rintro ⟨res, hres, hs⟩
      exact List.mem_map.mpr ⟨(id, res), List.mem_filter.mpr ⟨hres, hs⟩, rfl⟩

/-- Witness for C8: three stale sessions, the launcher fails for `S2`. -/
theorem recoverSessions_exactly_once_witness :
    ((recoverSessions (fun _ => false) mixedLauncher
      ⟨[⟨"S1", "one", "w", Status.running, some 100, []⟩,
        ⟨"S2", "two", "w", Status.running, none, []⟩,
        ⟨"S3", "three", "w", Status.running, some 300, []⟩], true, 100⟩).calls.map
        Prod.fst).Sublist ["S1", "S2", "S3"] ∧
    (recoverSessions (fun _ => false) mixedLauncher
      ⟨[⟨"S1", "one", "w", Status.running, some 100, []⟩,
        ⟨"S2", "two", "w", Status.running, none, []⟩,
        ⟨"S3", "three", "w", Status.running, some 300, []⟩], true, 100⟩).recovered = ["S1", "S3"] ∧
    (recoverSessions (fun _ => false) mixedLauncher
      ⟨[⟨"S1", "one", "w", Status.running, some 100, []⟩,
        ⟨"S2", "two", "w", Status.running, none, []⟩,
        ⟨"S3", "three", "w", Status.running, some 300, []⟩], true, 100⟩).failed = ["S2"] := by
  have h := recoverSessions_exactly_once (fun _ => false) mixedLauncher
    ⟨[⟨"S1", "one", "w", Status.running, some 100, []⟩,
      ⟨"S2", "two", "w", Status.running, none, []⟩,
      ⟨"S3", "three", "w", Status.running, some 300, []⟩], true, 100⟩ rfl (by decide)
  exact ⟨h.1, by decide, by decide⟩

/-! ## Lemmas on the notification manager -/

theorem slice_neg (α : Type) (l : List α) (c : Nat) (hc : 0 < c) :
    slice l (-(c : Int)) = lastN c l := by
  unfold slice lastN
  simp only
  have h1 : (-(c : Int)) < 0 := by omega
  rw [if_pos h1]
  congr 1
  omega

theorem lastN_length (α : Type) (c : Nat) (l : List α) :
    (lastN c l).length = min c l.length := by
  unfold lastN
  rw [List.length_drop]
  omega

theorem lastN_of_le (α : Type) (c : Nat) (l : List α) (h : l.length ≤ c) : lastN c l = l := by
  unfold lastN
  have : l.length - c = 0 := by omega
  rw [this, List.drop_zero]

theorem lastN_append_lastN (α : Type) (c : Nat) (x y : List α) :
    lastN c (lastN c x ++ y) = lastN c (x ++ y) := by
  unfold lastN
  rw [List.length_append, List.length_append, List.length_drop]
  rw [List.drop_append_eq_append_drop, List.drop_append_eq_append_drop, List.drop_drop,
    List.length_drop]
  congr 1
  · by_cases h : x.length + y.length - c ≤ x.length
    · congr 1; omega
    · rw [List.drop_eq_nil_of_le (by omega), List.drop_eq_nil_of_le (by omega)]
  · congr 1; omega

theorem drop_range' (s k n : Nat) :
    (List.range' s (k + n)).drop k = List.range' (s + k) n := by
  rw [Nat.add_comm k n, ← List.range'_append_1 s k n, List.drop_left' (by simp)]

theorem notify_queue (m : NotificationManager) (now : String) (level : Level)
    (title message : String) :
    (m.notify now level title message).2.queue
      = lastN MAX_QUEUE_SIZE (m.queue ++ [(m.notify now level title message).1]) := by
  unfold NotificationManager.notify
  simp only
  split
  · exact slice_neg _ _ MAX_QUEUE_SIZE (by decide)
  · rw [lastN_of_le]
    omega

theorem notify_nextId (m : NotificationManager) (now : String) (level : Level)
    (title message : String) :
    (m.notify now level title message).2.nextId = m.nextId + 1 := rfl

theorem notify_id (m : NotificationManager) (now : String) (level : Level)
    (title message : String) :
    (m.notify now level title message).1.id = m.nextId := rfl

theorem run_ids (ops : List Op) : ∀ m : NotificationManager,
    (m.run ops).2.map Notification.id
        = List.range' m.nextId (ops.filter Op.isNotify).length ∧
    (m.run ops).1.nextId = m.nextId + (ops.filter Op.isNotify).length := by
  induction ops with
  | nil => intro m; simp [NotificationManager.run]
  | cons op ops ih =>
    intro m
    unfold NotificationManager.run
    simp only
    cases op with
    | notify a =>
      have h := ih (m.notify a.now a.level a.title a.message).2
      rw [notify_nextId] at h
      simp only [NotificationManager.step, Option.toList, List.singleton_append, List.map_cons,
        List.filter_cons, Op.isNotify, if_true, List.length_cons, List.range'_succ, h.1, h.2,
        notify_id]
      exact ⟨trivial, by omega⟩
    | getRecent c => exact ih m
    | clear => exact ih m.clear
    | destroy => exact ih m.destroy

theorem run_notifyAll_queue (args : List NotifyArgs) : ∀ m : NotificationManager,
    m.queue.length ≤ MAX_QUEUE_SIZE →
    (m.run (notifyAll args)).1.queue
      = lastN MAX_QUEUE_SIZE (m.queue ++ (m.run (notifyAll args)).2) := by
  induction args with
  | nil =>
    intro m h
    simp [notifyAll, NotificationManager.run, lastN_of_le _ _ _ h]
  | cons a args ih =>
    intro m _
    have hq := notify_queue m a.now a.level a.title a.message
    have hlen : (m.notify a.now a.level a.title a.message).2.queue.length ≤ MAX_QUEUE_SIZE := by
      rw [hq, lastN_length]
      omega
    have h := ih (m.notify a.now a.level a.title a.message).2 hlen
    unfold notifyAll at h ⊢
    rw [List.map_cons]
    unfold NotificationManager.run
    simp only [NotificationManager.step, Option.toList, List.singleton_append]
    rw [h, hq, lastN_append_lastN]
    simp

theorem run_notifyAll_length (args : List NotifyArgs) (m : NotificationManager) :
    (m.run (notifyAll args)).2.length = args.length := by
  have h := (run_ids (notifyAll args) m).1
  have h2 := congrArg List.length h
  rw [List.length_map, List.length_range'] at h2
  rw [h2]
  unfold notifyAll
  rw [List.filter_map, List.length_map]
  congr 1
  apply List.filter_eq_self.mpr
  intro a _
  rfl

/-! ## The claims on notifications -/

/-- C9. Notification bound: after `N > 50` calls of `notify()` on a fresh
manager, `getRecent(50)` returns exactly 50 notifications, the last 50 created
in creation order, with ids `N-49, ..., N`. -/
theorem getRecent_after_many (args : List NotifyArgs) (hN : 50 < args.length) :
    ((NotificationManager.new.run (notifyAll args)).1.getRecent (some 50)).length = 50 ∧
    (NotificationManager.new.run (notifyAll args)).1.getRecent (some 50)
      = (NotificationManager.new.run (notifyAll args)).2.drop (args.length - 50) ∧
    ((NotificationManager.new.run (notifyAll args)).1.getRecent (some 50)).map Notification.id
      = List.range' (args.length - 49) 50 := by
  have hq := run_notifyAll_queue args NotificationManager.new (by decide)
  have hlen := run_notifyAll_length args NotificationManager.new
  have hids := (run_ids (notifyAll args) NotificationManager.new).1
  have hget : (NotificationManager.new.run (notifyAll args)).1.getRecent (some 50)
      = (NotificationManager.new.run (notifyAll args)).2.drop (args.length - 50) := by
    unfold NotificationManager.getRecent
    simp only [Option.getD_some]
    have hcast : (-50 : Int) = -((50 : Nat) : Int) := rfl
    rw [hcast, slice_neg _ _ 50 (by decide), hq]
    have h0 : NotificationManager.new.queue = [] := rfl
    rw [h0, List.nil_append]
    have h50 : MAX_QUEUE_SIZE = 50 := rfl
    rw [h50]
    unfold lastN
    rw [List.length_drop, List.drop_drop, hlen]
    congr 1
    omega
  refine ⟨?_, hget, ?_⟩
  · rw [hget, List.length_drop, hlen]
    omega
  · rw [hget, List.map_drop, hids]
    have hcount : ((notifyAll args).filter Op.isNotify).length = args.length := by
      have h2 := congrArg List.length hids
      rw [List.length_map, List.length_range', hlen] at h2
      exact h2.symm
    rw [hcount]
    have h1 : NotificationManager.new.nextId = 1 := rfl
    rw [h1]
    obtain ⟨k, hk⟩ : ∃ k, args.length = k + 50 := ⟨args.length - 50, by omega⟩
    rw [hk, Nat.add_sub_cancel, drop_range']
    congr 1
    omega

/-- Witness for C9: 51 notifications; the oldest survivor has id 2. -/
theorem getRecent_after_many_witness :
    ((NotificationManager.new.run (notifyAll (List.replicate 51
      ⟨"t", Level.info, "title", "message"⟩))).1.getRecent (some 50)).map Notification.id
      = List.range' 2 50 :=
  (getRecent_after_many (List.replicate 51 ⟨"t", Level.info, "title", "message"⟩)
    (by decide)).2.2

/-- C10. Monotonic ids: from a fresh manager, for every sequence of calls of
`notify`, `getRecent`, `clear` and `destroy`, the `k`-th call of `notify`
returns id `k`; so ids go up by one per call and none is used twice. -/
theorem notify_ids_sequential (ops : List Op) :
    (NotificationManager.new.run ops).2.length = (ops.filter Op.isNotify).length ∧
    (NotificationManager.new.run ops).2.map Notification.id
      = List.range' 1 (ops.filter Op.isNotify).length ∧
    (∀ (k : Nat) (hk : k < (NotificationManager.new.run ops).2.length),
      ((NotificationManager.new.run ops).2.get ⟨k, hk⟩).id = k + 1) ∧
    ((NotificationManager.new.run ops).2.map Notification.id).Nodup ∧
    (NotificationManager.new.run ops).1.nextId = (ops.filter Op.isNotify).length + 1 := by
  have h := run_ids ops NotificationManager.new
  have h1 : NotificationManager.new.nextId = 1 := rfl
  rw [h1] at h
  have hlen : (NotificationManager.new.run ops).2.length = (ops.filter Op.isNotify).length := by
    have h2 := congrArg List.length h.1
    rw [List.length_map, List.length_range'] at h2
    exact h2
  refine ⟨hlen, h.1, ?_, ?_, by rw [h.2]; omega⟩
  · intro k hk
    have h3 : ((NotificationManager.new.run ops).2.map Notification.id)[k]?
        = (List.range' 1 (ops.filter Op.isNotify).length)[k]? := by rw [h.1]
    rw [List.getElem?_map, List.getElem?_eq_getElem hk,
      List.getElem?_eq_getElem (by rw [List.length_range']; omega), List.getElem_range'] at h3
    simp only [Option.map_some', Option.some.injEq] at h3
    rw [List.get_eq_getElem, h3]
    omega
  · rw [h.1]
    exact List.nodup_range' 1 _

/-! ## More on the notification queue -/

theorem notify_queue_drop (m : NotificationManager) (now : String) (level : Level)
    (title message : String) (h : m.queue.length ≤ MAX_QUEUE_SIZE) :
    (m.notify now level title message).2.queue
      = m.queue.drop (m.queue.length + 1 - MAX_QUEUE_SIZE)
          ++ [(m.notify now level title message).1] := by
  rw [notify_queue]
  unfold lastN
  rw [List.length_append, List.length_singleton, List.drop_append_of_le_length]
  have h50 : MAX_QUEUE_SIZE = 50 := rfl
  rw [h50] at h ⊢
  omega

theorem notify_inv (m : NotificationManager) (now : String) (level : Level)
    (title message : String) (h : queueInv m) :
    queueInv (m.notify now level title message).2 := by
  obtain ⟨h1, h2, h3⟩ := h
  have hsub : ((m.notify now level title message).2.queue).Sublist
      (m.queue ++ [(m.notify now level title message).1]) := by
    rw [notify_queue]
    exact List.drop_sublist _ _
  refine ⟨?_, ?_, ?_⟩
  · rw [notify_queue, lastN_length]
    omega
  · refine List.Pairwise.sublist (hsub.map Notification.id) ?_
    rw [List.map_append, List.pairwise_append]
    refine ⟨h2, by simp, ?_⟩
    intro a ha b hb
    rcases List.mem_map.mp ha with ⟨n, hn, rfl⟩
    simp only [List.map_cons, List.map_nil, List.mem_singleton] at hb
    rw [hb, notify_id]
    exact h3 n hn
  · intro n hn
    rw [notify_nextId]
    rcases List.mem_append.mp (hsub.subset hn) with hq | hq
    · exact Nat.lt_succ_of_lt (h3 n hq)
    · rw [List.mem_singleton] at hq
      rw [hq, notify_id]
      exact Nat.lt_succ_self _

theorem run_inv (ops : List Op) : ∀ m : NotificationManager, queueInv m →
    queueInv (m.run ops).1 := by
  induction ops with
  | nil => intro m h; exact h
  | cons op ops ih =>
    intro m h
    unfold NotificationManager.run
    simp only
    apply ih
    cases op with
    | notify a => exact notify_inv m a.now a.level a.title a.message h
    | getRecent c => exact h
    | clear => exact ⟨Nat.zero_le _, List.Pairwise.nil, by intro n hn; cases hn⟩
    | destroy => exact ⟨Nat.zero_le _, List.Pairwise.nil, by intro n hn; cases hn⟩

theorem new_inv : queueInv NotificationManager.new :=
  ⟨Nat.zero_le _, List.Pairwise.nil, by intro n hn; cases hn⟩

theorem slice_nil (α : Type) (start : Int) : slice ([] : List α) start = [] := by
  unfold slice
  simp

theorem getRecent_pos (m : NotificationManager) (c : Nat) (hc : 0 < c) :
    m.getRecent (some (c : Int)) = lastN c m.queue := by
  unfold NotificationManager.getRecent
  simp only [Option.getD_some]
  exact slice_neg _ _ c hc

/-- C11. Queue cap invariant: in every state reached from a fresh manager by
calls of `notify`, `getRecent`, `clear` and `destroy`, the queue holds at most
50 notifications and their ids are strictly increasing; a further `notify`
appends when fewer than 50 are queued, and with 50 queued it drops exactly the
oldest one and appends. -/
theorem queue_cap_invariant (ops : List Op) (a : NotifyArgs) :
    (NotificationManager.new.run ops).1.queue.length ≤ MAX_QUEUE_SIZE ∧
    ((NotificationManager.new.run ops).1.queue.map Notification.id).Pairwise
      (fun x y => x < y) ∧
    ((NotificationManager.new.run ops).1.queue.length < MAX_QUEUE_SIZE →
      ((NotificationManager.new.run ops).1.notify a.now a.level a.title a.message).2.queue
        = (NotificationManager.new.run ops).1.queue
          ++ [((NotificationManager.new.run ops).1.notify a.now a.level a.title a.message).1]) ∧
    ((NotificationManager.new.run ops).1.queue.length = MAX_QUEUE_SIZE →
      ((NotificationManager.new.run ops).1.notify a.now a.level a.title a.message).2.queue
        = (NotificationManager.new.run ops).1.queue.drop 1
          ++ [((NotificationManager.new.run ops).1.notify a.now a.level a.title
                a.message).1]) := by
  have hinv := run_inv ops NotificationManager.new new_inv
  refine ⟨hinv.1, hinv.2.1, ?_, ?_⟩
  · intro hlt
    rw [notify_queue_drop _ _ _ _ _ hinv.1]
    have : (NotificationManager.new.run ops).1.queue.length + 1 - MAX_QUEUE_SIZE = 0 := by
      omega
    rw [this, List.drop_zero]
  · intro heq
    rw [notify_queue_drop _ _ _ _ _ hinv.1]
    have : (NotificationManager.new.run ops).1.queue.length + 1 - MAX_QUEUE_SIZE = 1 := by
      omega
    rw [this]

/-- C12 at the failing input: with two notifications queued, `getRecent(0)`
returns both of them, not an empty list. -/
theorem getRecent_zero_returns_all :
    ((NotificationManager.new.run (notifyAll [scenarioArgs, scenarioArgs])).1.getRecent
      (some 0)).length = 2 ∧
    (NotificationManager.new.run (notifyAll [scenarioArgs, scenarioArgs])).1.getRecent (some 0)
      = (NotificationManager.new.run (notifyAll [scenarioArgs, scenarioArgs])).1.queue := by
  decide

/-- C13. Postcondition of `notify`: the returned notification carries the
supplied level, title and message and the next sequential id; it is the last
element of the queue afterwards, and `getRecent(1)` right after returns
exactly that record. -/
theorem notify_postcondition (m : NotificationManager) (now : String) (level : Level)
    (title message : String) :
    (m.notify now level title message).1
      = { id := m.nextId, level := level, title := title, message := message,
          timestamp := now } ∧
    (m.notify now level title message).2.nextId = m.nextId + 1 ∧
    (m.notify now level title message).2.queue.getLast?
      = some (m.notify now level title message).1 ∧
    (m.notify now level title message).2.getRecent (some 1)
      = [(m.notify now level title message).1] := by
  have hq : ∃ pre, (m.notify now level title message).2.queue
      = pre ++ [(m.notify now level title message).1] := by
    refine ⟨m.queue.drop (m.queue.length + 1 - MAX_QUEUE_SIZE), ?_⟩
    rw [notify_queue]
    unfold lastN
    rw [List.length_append, List.length_singleton, List.drop_append_of_le_length]
    have h50 : MAX_QUEUE_SIZE = 50 := rfl
    rw [h50]
    omega
  obtain ⟨pre, hpre⟩ := hq
  refine ⟨rfl, rfl, ?_, ?_⟩
  · rw [hpre]
    simp
  · have h1 := getRecent_pos (m.notify now level title message).2 1 (by decide)
    have hcast : ((1 : Nat) : Int) = 1 := rfl
    rw [hcast] at h1
    rw [h1, hpre]
    unfold lastN
    rw [List.length_append, List.length_singleton, Nat.add_sub_cancel,
      List.drop_left' rfl]

/-- Witness for C13: the scenario of the spec on a fresh manager. -/
theorem notify_postcondition_witness :
    (NotificationManager.new.notify "2024-01-01T00:00:00.000Z" Level.error "Session Error"
      "x failed").2.getRecent (some 1)
      = [{ id := 1, level := Level.error, title := "Session Error", message := "x failed",
           timestamp := "2024-01-01T00:00:00.000Z" }] := by
  have h := notify_postcondition NotificationManager.new "2024-01-01T00:00:00.000Z"
    Level.error "Session Error" "x failed"
  rw [h.2.2.2, h.1]
  rfl

/-- C20. Postcondition of `clear`: the queue is empty, `count` is 0 and
`getRecent` returns the empty list for every argument; one `cleared` signal
and nothing else is published; the next id and the other fields are as
before. -/
theorem clear_postcondition (m : NotificationManager) :
    m.clear.queue = [] ∧
    m.clear.count = 0 ∧
    (∀ k : Option Int, m.clear.getRecent k = []) ∧
    m.clear.emitted = m.emitted ++ [Emitted.cleared] ∧
    m.clear.nextId = m.nextId ∧
    m.clear.listeners = m.listeners ∧
    m.clear.storeListenersAttached = m.storeListenersAttached := by
  refine ⟨rfl, rfl, ?_, rfl, rfl, rfl, rfl⟩
  intro k
  unfold NotificationManager.getRecent NotificationManager.clear
  exact slice_nil _ _

/-! ## The partition made by `checkForRecovery` -/

/-- C14. Partition of `checkForRecovery`: `healthy` holds the running sessions
with a truthy pid that is alive, `stale` the running sessions with a falsy or
dead pid, both in Store listing order; the lists are disjoint, together they
are the running sessions, and a session that is not running is in neither.
The function only reads the Store. -/
theorem checkForRecovery_partition (os : Nat → Bool) (st : Store) :
    (checkForRecovery os st).healthy
      = st.getAllSessionsList.filter (fun s =>
          decide (s.status = Status.running) && (!pidFalsy s.pid && probe os s.pid)) ∧
    (checkForRecovery os st).stale
      = st.getAllSessionsList.filter (fun s =>
          decide (s.status = Status.running) && (pidFalsy s.pid || !probe os s.pid)) ∧
    List.Disjoint (checkForRecovery os st).healthy (checkForRecovery os st).stale ∧
    ((checkForRecovery os st).healthy ++ (checkForRecovery os st).stale).Perm
      (st.getAllSessionsList.filter (fun s => decide (s.status = Status.running))) ∧
    (checkForRecovery os st).healthy.Sublist st.getAllSessionsList ∧
    (checkForRecovery os st).stale.Sublist st.getAllSessionsList ∧
    (∀ s, s.status ≠ Status.running →
      s ∉ (checkForRecovery os st).healthy ∧ s ∉ (checkForRecovery os st).stale) ∧
    (checkForRecovery os st).total = st.getAllSessionsList.length := by
  have hh : (checkForRecovery os st).healthy
      = st.getAllSessionsList.filter (fun s =>
          decide (s.status = Status.running) && (!pidFalsy s.pid && probe os s.pid)) := by
    rw [checkForRecovery_eq]
    unfold Store.getAllSessionsList
    apply List.filter_congr
    intro s _
    unfold isHealthy isPidAlive
    cases pidFalsy s.pid <;> simp
  have hs : (checkForRecovery os st).stale
      = st.getAllSessionsList.filter (fun s =>
          decide (s.status = Status.running) && (pidFalsy s.pid || !probe os s.pid)) := by
    rw [checkForRecovery_eq]
    rfl
  refine ⟨hh, hs, ?_, ?_, ?_, ?_, ?_, ?_⟩
  · rw [hh, hs]
    intro x hx hy
    have h1 := (List.mem_filter.mp hx).2
    have h2 := (List.mem_filter.mp hy).2
    cases hf : pidFalsy x.pid <;> cases hp : probe os x.pid <;> simp [hf, hp] at h1 h2
  · have h1 : (checkForRecovery os st).healthy
        = (st.getAllSessionsList.filter (fun s => decide (s.status = Status.running))).filter
            (fun s => !pidFalsy s.pid && probe os s.pid) := by
      rw [hh, List.filter_filter]
      apply List.filter_congr
      intro s _
      cases decide (s.status = Status.running) <;> simp
    have h2 : (checkForRecovery os st).stale
        = (st.getAllSessionsList.filter (fun s => decide (s.status = Status.running))).filter
            (fun s => !(!pidFalsy s.pid && probe os s.pid)) := by
      rw [hs, List.filter_filter]
      apply List.filter_congr
      intro s _
      cases decide (s.status = Status.running) <;> cases pidFalsy s.pid <;>
        cases probe os s.pid <;> rfl
    rw [h1, h2]
    exact List.filter_append_perm _ _
  · rw [hh]; exact List.filter_sublist _
  · rw [hs]; exact List.filter_sublist _
  · intro s hne
    rw [hh, hs]
    constructor
    · intro hin
      have := (List.mem_filter.mp hin).2
      simp [hne] at this
    · intro hin
      have := (List.mem_filter.mp hin).2
      simp [hne] at this
  · rfl

/-! ## Sequences of tracker calls and the Store -/

theorem keys_set_subset (t : Tracker) (id : String) (e : TrackedEntry) (k : String)
    (hk : k ∈ getTrackedSessions (Tracker.set t id e)) :
    k ∈ getTrackedSessions t ∨ k = id := by
  unfold getTrackedSessions Tracker.set at hk
  unfold getTrackedSessions
  split at hk
  · rcases List.mem_map.mp hk with ⟨kv, hkv, rfl⟩
    rcases List.mem_map.mp hkv with ⟨kv0, hkv0, rfl⟩
    by_cases h : kv0.1 = id
    · right; simp [h]
    · left; simp only [h, if_false]; exact List.mem_map_of_mem Prod.fst hkv0
  · rw [List.map_append, List.mem_append] at hk
    rcases hk with hk | hk
    · exact Or.inl hk
    · right; simpa using hk

theorem keys_delete (t : Tracker) (id k : String)
    (hk : k ∈ getTrackedSessions (Tracker.delete t id)) :
    k ∈ getTrackedSessions t ∧ k ≠ id := by
  unfold getTrackedSessions Tracker.delete at hk
  unfold getTrackedSessions
  rcases List.mem_map.mp hk with ⟨kv, hkv, rfl⟩
  have h := List.mem_filter.mp hkv
  exact ⟨List.mem_map_of_mem Prod.fst h.1, by simpa using h.2⟩

theorem sweep_keeps_trackedRunning (os : Nat → Bool) (l : Tracker) :
    ∀ s : SweepState, trackedRunning (s.tracked, s.store) →
      trackedRunning ((l.foldl (checkAllStep os) s).tracked,
        (l.foldl (checkAllStep os) s).store) := by
  induction l with
  | nil => intro s h; exact h
  | cons kv l ih =>
    intro s h
    rw [List.foldl_cons]
    apply ih
    rw [checkAllStep_eq]
    split
    · exact h
    · intro id hid
      have hd := keys_delete s.tracked kv.1 id hid
      show ∃ sess, (repair s.store kv).getSession id = some sess ∧ _
      rw [repair_getSession_ne _ _ _ hd.2]
      exact h id hd.1

theorem applyTrackerOp_keeps (s : Tracker × Store) (op : TrackerOp)
    (h : trackedRunning s) (hop : tracksRunning s [op]) :
    trackedRunning (applyTrackerOp s op) := by
  cases op with
  | track now sessionId pid childProcess =>
    intro id hid
    rcases keys_set_subset s.1 sessionId _ id hid with hk | hk
    · exact h id hk
    · rw [hk]; exact hop.1
  | untrack sessionId =>
    intro id hid
    exact h id (keys_delete s.1 sessionId id hid).1
  | checkAll os =>
    exact sweep_keeps_trackedRunning os s.1
      { tracked := s.1, store := s.2, alive := [], dead := [] } h

theorem runTracker_keeps (ops : List TrackerOp) : ∀ s : Tracker × Store,
    trackedRunning s → tracksRunning s ops → trackedRunning (runTracker s ops) := by
  induction ops with
  | nil => intro s h _; exact h
  | cons op ops ih =>
    intro s h hd
    unfold runTracker
    rw [List.foldl_cons]
    apply ih
    · apply applyTrackerOp_keeps s op h
      cases op with
      | track now sessionId pid childProcess => exact ⟨hd.1, trivial⟩
      | untrack sessionId => trivial
      | checkAll os => trivial
    · cases op with
      | track now sessionId pid childProcess => exact hd.2
      | untrack sessionId => exact hd
      | checkAll os => exact hd

/-- C15, as stated, fails: `track` does not consult the Store, so after
`track('S1', 4242)` on an empty tracker the id `S1` is tracked although the
Store shows `S1` as stopped. -/
theorem tracker_subset_fails :
    getTrackedSessions
      (runTracker ([], stoppedStore) [TrackerOp.track 0 "S1" (some 4242) none]).1 = ["S1"] ∧
    ((runTracker ([], stoppedStore)
      [TrackerOp.track 0 "S1" (some 4242) none]).2.getSession "S1").map Session.status
      = some Status.stopped ∧
    ¬ trackedRunning (runTracker ([], stoppedStore) [TrackerOp.track 0 "S1" (some 4242) none]) := by
  refine ⟨by decide, by decide, ?_⟩
  intro h
  obtain ⟨sess, hs, hr⟩ := h "S1" (by decide)
  have hget : (runTracker ([], stoppedStore)
      [TrackerOp.track 0 "S1" (some 4242) none]).2.getSession "S1"
      = some ⟨"S1", "one", "w", Status.stopped, none, []⟩ := by decide
  rw [hget] at hs
  have := Option.some.inj hs
  rw [← this] at hr
  exact absurd hr (by decide)

/-- C15, amended. Starting from the empty tracker, in every state reached
through `track`, `untrack` and `checkAll` in which each `track` call was made
for an id the Store showed as running at that moment, every tracked id is the
id of a session whose Store status is running. -/
theorem tracker_subset_of_tracksRunning (st : Store) (ops : List TrackerOp)
    (hd : tracksRunning ([], st) ops) :
    trackedRunning (runTracker ([], st) ops) := by
  apply runTracker_keeps ops ([], st) _ hd
  intro id hid
  simp [getTrackedSessions] at hid

/-- Witness for C15 (amended): track a running session with a dead pid, sweep,
track it again with a live pid, untrack it. -/
theorem tracker_subset_of_tracksRunning_witness :
    trackedRunning (runTracker ([], scenarioStore)
      [TrackerOp.track 0 "S1" (some 100) none, TrackerOp.track 1 "S2" (some 200) none,
       TrackerOp.checkAll scenarioOs, TrackerOp.untrack "S2"]) :=
  tracker_subset_of_tracksRunning scenarioStore
    [TrackerOp.track 0 "S1" (some 100) none, TrackerOp.track 1 "S2" (some 200) none,
     TrackerOp.checkAll scenarioOs, TrackerOp.untrack "S2"]
    ⟨⟨⟨"S1", "one", "w", Status.running, some 100, []⟩, by decide, by decide⟩,
     ⟨⟨"S2", "two", "w", Status.running, some 200, []⟩, by decide, by decide⟩, trivial⟩

theorem sweep_keeps_missing (os : Nat → Bool) (id : String) (l : Tracker) :
    ∀ s : SweepState, s.store.getSession id = none →
      (l.foldl (checkAllStep os) s).store.getSession id = none := by
  induction l with
  | nil => intro s hs; exact hs
  | cons kv l ih =>
    intro s hs
    rw [List.foldl_cons]
    apply ih
    rw [checkAllStep_eq]
    split
    · exact hs
    · show (repair s.store kv).getSession id = none
      by_cases hk : id = kv.1
      · subst hk
        unfold repair
        rw [hs]
        exact hs
      · rw [repair_getSession_ne _ _ _ hk]
        exact hs

/-- C16, as stated, fails: a tracked id without a session in the Store whose
process is alive stays in the tracker after `checkAll()`. -/
theorem checkAll_missing_alive_kept :
    (⟨[], false, 100⟩ : Store).getSession "x" = none ∧
    getTrackedSessions
      (checkAll (fun p => p == 7) [("x", ⟨some 7, none, 0⟩)] ⟨[], false, 100⟩).tracked = ["x"] := by
  decide

/-- C16, amended. For a tracked id whose session does not exist in the Store,
the iteration of `checkAll()` that visits it leaves the Store as it is, the
Store still has no session under the id after the sweep, and the tracker
forgets the id exactly when its process is not alive: a dead id moves to
`dead` and leaves the tracker, a live id stays tracked. -/
theorem checkAll_missing_session (os : Nat → Bool) (t : Tracker) (st : Store)
    (h : Tracker.WF t) (id : String) (hm : id ∈ getTrackedSessions t)
    (hnone : st.getSession id = none) :
    (checkAll os t st).store.getSession id = none ∧
    (∀ (s : SweepState) (e : TrackedEntry), s.store.getSession id = none →
      (checkAllStep os s (id, e)).store = s.store) ∧
    (isAlive os t id = false →
      id ∉ getTrackedSessions (checkAll os t st).tracked ∧ id ∈ (checkAll os t st).dead) ∧
    (isAlive os t id = true →
      id ∈ getTrackedSessions (checkAll os t st).tracked ∧ id ∈ (checkAll os t st).alive) := by
  have htr : getTrackedSessions (checkAll os t st).tracked
      = (getTrackedSessions t).filter (isAlive os t) := by
    rw [checkAll_eq os t st h]; exact keys_filter_alive os t h
  have ha : (checkAll os t st).alive = (getTrackedSessions t).filter (isAlive os t) := by
    rw [checkAll_eq os t st h]; exact keys_filter_alive os t h
  have hd : (checkAll os t st).dead
      = (getTrackedSessions t).filter (fun k => !isAlive os t k) := by
    rw [checkAll_eq os t st h]; exact keys_filter_dead os t h
  refine ⟨sweep_keeps_missing os id t _ hnone, ?_, ?_, ?_⟩
  · intro s e hs
    rw [checkAllStep_eq]
    split
    · rfl
    · show repair s.store (id, e) = s.store
      unfold repair
      simp only
      rw [hs]
  · intro hdead
    rw [htr, hd]
    constructor
    · intro hin
      have := (List.mem_filter.mp hin).2
      rw [hdead] at this
      exact absurd this (by decide)
    · exact List.mem_filter.mpr ⟨hm, by simp [hdead]⟩
  · intro halive
    rw [htr, ha]
    exact ⟨List.mem_filter.mpr ⟨hm, halive⟩, List.mem_filter.mpr ⟨hm, halive⟩⟩

/-- Witness for C16 (amended): `x` is tracked with a dead pid and has no
session in the Store. -/
theorem checkAll_missing_session_witness :
    (checkAll (fun _ => false) [("x", ⟨some 7, none, 0⟩)] ⟨[], false, 100⟩).store.getSession "x"
      = none ∧
    "x" ∉ getTrackedSessions
      (checkAll (fun _ => false) [("x", ⟨some 7, none, 0⟩)] ⟨[], false, 100⟩).tracked := by
  have h := checkAll_missing_session (fun _ => false) [("x", ⟨some 7, none, 0⟩)] ⟨[], false, 100⟩
    (by decide) "x" (by decide) (by decide)
  exact ⟨h.1, (h.2.2.1 (by decide)).1⟩

/-! ## The store listeners -/

theorem attach_attached (m : NotificationManager) (bus : StoreBus) :
    (m.attachStoreListeners bus).1.storeListenersAttached = true := by
  unfold NotificationManager.attachStoreListeners
  cases h : m.storeListenersAttached <;> simp [h]

theorem attach_of_attached (m : NotificationManager) (bus : StoreBus)
    (h : m.storeListenersAttached = true) : m.attachStoreListeners bus = (m, bus) := by
  unfold NotificationManager.attachStoreListeners
  simp [h]

theorem attachTimes_of_attached (n : Nat) : ∀ s : NotificationManager × StoreBus,
    s.1.storeListenersAttached = true → attachTimes n s = s := by
  induction n with
  | zero => intro s _; rfl
  | succ n ih =>
    intro s h
    unfold attachTimes
    rw [attach_of_attached s.1 s.2 h]
    exact ih s h

theorem attachTimes_succ (n : Nat) (m : NotificationManager) (bus : StoreBus) :
    attachTimes (n + 1) (m, bus) = m.attachStoreListeners bus := by
  unfold attachTimes
  exact attachTimes_of_attached n _ (attach_attached m bus)

theorem attach_new_handlers :
    (NotificationManager.new.attachStoreListeners StoreBus.empty).2.handlers
      = attachedTopics := by
  decide

theorem emit_attached (m0 : NotificationManager) (now : String) (ev : StoreEvent) :
    StoreBus.emit { handlers := attachedTopics } m0 now ev = m0.callHandler now ev := by
  cases ev <;> rfl

theorem callHandler_table (m0 : NotificationManager) (now : String) (ev : StoreEvent) :
    (∀ lvl title, tableEntry ev = some (lvl, title) →
      ∃ msg, m0.callHandler now ev = (m0.notify now lvl title msg).2) ∧
    (tableEntry ev = none → m0.callHandler now ev = m0) := by
  cases ev with
  | sessionUpdated session =>
    rcases session with ⟨sid, name, ws, status, pid, logs⟩
    cases status
    all_goals constructor
    all_goals intro x
    all_goals first
      | rfl
      | (intro title h
         simp only [tableEntry, Option.some.injEq, Prod.mk.injEq, reduceCtorEq] at h
         obtain ⟨rfl, rfl⟩ := h
         exact ⟨_, rfl⟩)
      | (intro title h
         simp only [tableEntry, reduceCtorEq] at h)
      | (simp only [tableEntry, reduceCtorEq] at x)
  | sessionCreated session =>
    refine ⟨?_, fun h => by cases h⟩
    intro lvl title h
    simp only [tableEntry, Option.some.injEq, Prod.mk.injEq] at h
    obtain ⟨rfl, rfl⟩ := h
    exact ⟨_, rfl⟩
  | sessionDeleted id =>
    refine ⟨?_, fun h => by cases h⟩
    intro lvl title h
    simp only [tableEntry, Option.some.injEq, Prod.mk.injEq] at h
    obtain ⟨rfl, rfl⟩ := h
    exact ⟨_, rfl⟩
  | workspaceCreated workspace =>
    refine ⟨?_, fun h => by cases h⟩
    intro lvl title h
    simp only [tableEntry, Option.some.injEq, Prod.mk.injEq] at h
    obtain ⟨rfl, rfl⟩ := h
    exact ⟨_, rfl⟩
  | workspaceDeleted id =>
    refine ⟨?_, fun h => by cases h⟩
    intro lvl title h
    simp only [tableEntry, Option.some.injEq, Prod.mk.injEq] at h
    obtain ⟨rfl, rfl⟩ := h
    exact ⟨_, rfl⟩
  | workspaceActivated workspace =>
    refine ⟨?_, fun h => by cases h⟩
    intro lvl title h
    simp only [tableEntry, Option.some.injEq, Prod.mk.injEq] at h
    obtain ⟨rfl, rfl⟩ := h
    exact ⟨_, rfl⟩
  | error type error =>
    refine ⟨?_, fun h => by cases h⟩
    intro lvl title h
    simp only [tableEntry, Option.some.injEq, Prod.mk.injEq] at h
    obtain ⟨rfl, rfl⟩ := h
    exact ⟨_, rfl⟩

theorem notify_emitted_length (m : NotificationManager) (now : String) (level : Level)
    (title message : String) :
    (m.notify now level title message).2.emitted.length = m.emitted.length + 1 := by
  unfold NotificationManager.notify
  simp

/-- C17 at the failing input: on a fresh manager, after
`attachStoreListeners()` and `destroy()` the queue is empty, but the seven
handlers are still subscribed on the Store, and a `session:created` event
that follows puts a notification with id 1 in the queue. -/
theorem destroy_keeps_store_handlers :
    (NotificationManager.new.attachStoreListeners StoreBus.empty).1.destroy.queue = [] ∧
    (NotificationManager.new.attachStoreListeners StoreBus.empty).1.destroy.listeners = [] ∧
    (NotificationManager.new.attachStoreListeners StoreBus.empty).1.destroy.storeListenersAttached
      = true ∧
    (NotificationManager.new.attachStoreListeners StoreBus.empty).2.handlers = attachedTopics ∧
    ((NotificationManager.new.attachStoreListeners StoreBus.empty).2.emit
      (NotificationManager.new.attachStoreListeners StoreBus.empty).1.destroy "t"
      (StoreEvent.sessionCreated ⟨"S1", "one", "w", Status.idle, none, []⟩)).queue
      = [{ id := 1, level := Level.info, title := "Session Created",
           message := dq ++ "one" ++ dq ++ " added to workspace", timestamp := "t" }] := by
  decide

/-- C18. Idempotence of `attachStoreListeners`: calling it `n ≥ 1` times in a
row leaves the manager and the Store as one call does; on a fresh manager and
Store that is the seven subscriptions, one per event name, so a Store event
that follows calls one handler once: an event of the table produces one
notification and uses one id, any other event none. -/
theorem attachStoreListeners_idempotent (n : Nat) (hn : 1 ≤ n) (m : NotificationManager)
    (bus : StoreBus) :
    attachTimes n (m, bus) = m.attachStoreListeners bus ∧
    (attachTimes n (NotificationManager.new, StoreBus.empty)).2.handlers = attachedTopics ∧
    ∀ (m0 : NotificationManager) (now : String) (ev : StoreEvent),
      (attachTimes n (NotificationManager.new, StoreBus.empty)).2.emit m0 now ev
        = m0.callHandler now ev ∧
      (tableEntry ev ≠ none →
        ((attachTimes n (NotificationManager.new, StoreBus.empty)).2.emit m0 now ev).nextId
          = m0.nextId + 1 ∧
        ((attachTimes n (NotificationManager.new, StoreBus.empty)).2.emit m0 now
          ev).emitted.length = m0.emitted.length + 1 ∧
        (m0.queue.length < MAX_QUEUE_SIZE →
          ((attachTimes n (NotificationManager.new, StoreBus.empty)).2.emit m0 now
            ev).queue.length = m0.queue.length + 1)) ∧
      (tableEntry ev = none →
        (attachTimes n (NotificationManager.new, StoreBus.empty)).2.emit m0 now ev = m0) := by
  obtain ⟨k, rfl⟩ : ∃ k, n = k + 1 := ⟨n - 1, by omega⟩
  have hbus : (attachTimes (k + 1) (NotificationManager.new, StoreBus.empty)).2
      = { handlers := attachedTopics } := by
    rw [attachTimes_succ]
    rfl
  refine ⟨attachTimes_succ k m bus, by rw [hbus], ?_⟩
  intro m0 now ev
  rw [hbus, emit_attached]
  have ht := callHandler_table m0 now ev
  refine ⟨rfl, ?_, ht.2⟩
  intro hne
  cases hte : tableEntry ev with
  | none => exact absurd hte hne
  | some p =>
    obtain ⟨msg, hmsg⟩ := ht.1 p.1 p.2 hte
    rw [hmsg]
    refine ⟨rfl, notify_emitted_length _ _ _ _ _, ?_⟩
    intro hlt
    rw [notify_queue_drop _ _ _ _ _ (Nat.le_of_lt hlt)]
    have : m0.queue.length + 1 - MAX_QUEUE_SIZE = 0 := by omega
    rw [this, List.drop_zero, List.length_append, List.length_singleton]

/-- Witness for C18: three calls in a row on a fresh manager. -/
theorem attachStoreListeners_idempotent_witness :
    attachTimes 3 (NotificationManager.new, StoreBus.empty)
      = NotificationManager.new.attachStoreListeners StoreBus.empty :=
  (attachStoreListeners_idempotent 3 (by decide) NotificationManager.new StoreBus.empty).1

/-- C19. Store-event mapping: after `attachStoreListeners()` on a fresh
manager and Store, a Store event with a row in the table makes exactly one
`notify` call, with the level and title of its row, and a `session:updated`
event whose status is none of running, stopped and error (the only events
without a row) makes none. -/
theorem store_event_mapping (m0 : NotificationManager) (now : String) (ev : StoreEvent) :
    (∀ lvl title, tableEntry ev = some (lvl, title) →
      ∃ msg, (NotificationManager.new.attachStoreListeners StoreBus.empty).2.emit m0 now ev
        = (m0.notify now lvl title msg).2) ∧
    (tableEntry ev = none →
      (NotificationManager.new.attachStoreListeners StoreBus.empty).2.emit m0 now ev = m0) ∧
    (tableEntry ev = none ↔ ∃ session, ev = StoreEvent.sessionUpdated session ∧
      session.status = Status.idle) := by
  have hbus : (NotificationManager.new.attachStoreListeners StoreBus.empty).2
      = { handlers := attachedTopics } := rfl
  rw [hbus, emit_attached]
  refine ⟨(callHandler_table m0 now ev).1, (callHandler_table m0 now ev).2, ?_⟩
  constructor
  · intro h
    cases ev with
    | sessionUpdated session =>
      refine ⟨session, rfl, ?_⟩
      rcases session with ⟨sid, name, ws, status, pid, logs⟩
      cases status
      · rfl
      all_goals simp only [tableEntry, reduceCtorEq] at h
    | sessionCreated session => simp only [tableEntry, reduceCtorEq] at h
    | sessionDeleted id => simp only [tableEntry, reduceCtorEq] at h
    | workspaceCreated workspace => simp only [tableEntry, reduceCtorEq] at h
    | workspaceDeleted id => simp only [tableEntry, reduceCtorEq] at h
    | workspaceActivated workspace => simp only [tableEntry, reduceCtorEq] at h
    | error type error => simp only [tableEntry, reduceCtorEq] at h
  · rintro ⟨session, rfl, hst⟩
    simp only [tableEntry, hst]

/-! ## Statistics, decision of `isAlive`, `track` and `untrack` -/

theorem getStats_fold (os : Nat → Bool) (t : Tracker) (l : List String) :
    ∀ acc : Nat × Nat,
      l.foldl (getStatsStep os t) acc
        = (acc.1 + (l.filter (isAlive os t)).length,
           acc.2 + (l.filter (fun id => !isAlive os t id)).length) := by
  induction l with
  | nil => intro acc; simp
  | cons a l ih =>
    intro acc
    rw [List.foldl_cons, ih]
    unfold getStatsStep
    cases h : isAlive os t a <;> simp [h, List.filter_cons] <;> omega

/-- C24. Forecast by `getStats`: the function only reads the tracker;
`tracked` is the number of entries and equals `alive + dead`, and `alive` and
`dead` are the lengths of the lists that a `checkAll()` under the same OS
state returns. -/
theorem getStats_forecast (os : Nat → Bool) (t : Tracker) (st : Store) (h : Tracker.WF t) :
    (getStats os t).tracked = t.length ∧
    (getStats os t).tracked = (getStats os t).alive + (getStats os t).dead ∧
    (getStats os t).alive = (checkAll os t st).alive.length ∧
    (getStats os t).dead = (checkAll os t st).dead.length := by
  have ha : (getStats os t).alive = ((t.map Prod.fst).filter (isAlive os t)).length := by
    unfold getStats
    simp [getStats_fold]
  have hd : (getStats os t).dead
      = ((t.map Prod.fst).filter (fun id => !isAlive os t id)).length := by
    unfold getStats
    simp [getStats_fold]
  refine ⟨rfl, ?_, ?_, ?_⟩
  · have hp := (List.filter_append_perm (isAlive os t) (t.map Prod.fst)).length_eq
    rw [List.length_append, List.length_map] at hp
    rw [ha, hd, hp]
    rfl
  · rw [ha, checkAll_eq os t st h]
    simp only
    rw [keys_filter_alive os t h]
    rfl
  · rw [hd, checkAll_eq os t st h]
    simp only
    rw [keys_filter_dead os t h]
    rfl

/-- Witness for C24: three tracked sessions, the middle one dead. -/
theorem getStats_forecast_witness :
    getStats (fun p => p == 7) [("a", ⟨some 7, none, 0⟩), ("b", ⟨some 4242, none, 1⟩),
        ("c", ⟨some 7, none, 2⟩)] = { tracked := 3, alive := 2, dead := 1 } ∧
    (getStats (fun p => p == 7) [("a", ⟨some 7, none, 0⟩), ("b", ⟨some 4242, none, 1⟩),
        ("c", ⟨some 7, none, 2⟩)]).dead
      = (checkAll (fun p => p == 7) [("a", ⟨some 7, none, 0⟩), ("b", ⟨some 4242, none, 1⟩),
          ("c", ⟨some 7, none, 2⟩)] ⟨[], false, 100⟩).dead.length :=
  ⟨by decide, (getStats_forecast (fun p => p == 7) [("a", ⟨some 7, none, 0⟩),
    ("b", ⟨some 4242, none, 1⟩), ("c", ⟨some 7, none, 2⟩)] ⟨[], false, 100⟩ (by decide)).2.2.2⟩

/-- C25. Decision of `isAlive`: without an entry for the id, or with an entry
whose pid is falsy (null or 0), the result is false whatever the OS would
answer; otherwise the result is the outcome of the probe of the pid of the
entry, true when the signal is delivered and false when the probe fails. -/
theorem isAlive_decision (os : Nat → Bool) (t : Tracker) (id : String) :
    (Tracker.get t id = none → ∀ os2 : Nat → Bool, isAlive os2 t id = false) ∧
    (∀ e, Tracker.get t id = some e → pidFalsy e.pid = true →
      ∀ os2 : Nat → Bool, isAlive os2 t id = false) ∧
    (∀ e p, Tracker.get t id = some e → e.pid = some p → p ≠ 0 → isAlive os t id = os p) ∧
    (∀ pid : Option Nat, pidFalsy pid = true ↔ (pid = none ∨ pid = some 0)) := by
  refine ⟨?_, ?_, ?_, ?_⟩
  · intro h os2
    unfold isAlive
    rw [h]
  · intro e h hf os2
    unfold isAlive
    rw [h]
    simp [hf]
  · intro e p h hp hne
    unfold isAlive
    rw [h]
    simp only [hp]
    cases p with
    | zero => exact absurd rfl hne
    | succ n => simp [pidFalsy, probe]
  · intro pid
    cases pid with
    | none => simp [pidFalsy]
    | some p =>
      cases p with
      | zero => simp [pidFalsy]
      | succ n => simp [pidFalsy]

theorem keys_set (t : Tracker) (id : String) (e : TrackedEntry) :
    getTrackedSessions (Tracker.set t id e)
      = if id ∈ getTrackedSessions t then getTrackedSessions t
        else getTrackedSessions t ++ [id] := by
  unfold getTrackedSessions Tracker.set
  by_cases hin : id ∈ t.map Prod.fst
  · have hany : t.any (fun kv => decide (kv.1 = id)) = true := by
      rcases List.mem_map.mp hin with ⟨kv, hkv, hk⟩
      exact List.any_eq_true.mpr ⟨kv, hkv, by simp [hk]⟩
    rw [if_pos hany, if_pos hin, List.map_map]
    apply List.map_congr_left
    intro kv _
    by_cases hk : kv.1 = id <;> simp [hk]
  · have hany : ¬ (t.any (fun kv => decide (kv.1 = id)) = true) := by
      intro h
      rcases List.any_eq_true.mp h with ⟨kv, hkv, hk⟩
      exact hin (List.mem_map.mpr ⟨kv, hkv, by simpa using hk⟩)
    rw [if_neg hany, if_neg hin, List.map_append]
    rfl

theorem get_set (t : Tracker) (id : String) (e : TrackedEntry) (k : String) :
    Tracker.get (Tracker.set t id e) k = if k = id then some e else Tracker.get t k := by
  unfold Tracker.set
  by_cases hany : t.any (fun kv => decide (kv.1 = id)) = true
  · rw [if_pos hany]
    unfold Tracker.get
    induction t with
    | nil => simp at hany
    | cons a t ih =>
      simp only [List.map_cons, List.find?_cons]
      by_cases ha : a.1 = id
      · by_cases hk : k = id
        · simp [ha, hk]
        · have hne : ¬ (id = k) := fun h2 => hk h2.symm
          have hne2 : ¬ (a.1 = k) := by rw [ha]; exact hne
          simp only [ha, if_true, hne, hne2, decide_False, hk, if_false]
          by_cases hany2 : t.any (fun kv => decide (kv.1 = id)) = true
          · have := ih hany2
            simp only [hk, if_false] at this
            exact this
          · have hsame : t.map (fun kv => if kv.1 = id then (id, e) else kv) = t := by
              conv_rhs => rw [← List.map_id t]
              apply List.map_congr_left
              intro kv hkv
              have : ¬ (kv.1 = id) := by
                intro h3
                exact hany2 (List.any_eq_true.mpr ⟨kv, hkv, by simp [h3]⟩)
              simp [this]
            rw [hsame]
      · have hany2 : t.any (fun kv => decide (kv.1 = id)) = true := by
          simp only [List.any_cons, ha, decide_False, Bool.false_or] at hany
          exact hany
        have := ih hany2
        simp only [ha, if_false]
        by_cases hak : a.1 = k
        · have hk : ¬ (k = id) := by rw [← hak]; exact ha
          simp [hak, hk]
        · simp only [hak, decide_False]
          exact this
  · rw [if_neg hany]
    unfold Tracker.get
    have hnone : ∀ kv ∈ t, ¬ (kv.1 = id) := by
      intro kv hkv h3
      exact hany (List.any_eq_true.mpr ⟨kv, hkv, by simp [h3]⟩)
    rw [List.find?_append]
    by_cases hk : k = id
    · subst hk
      have : t.find? (fun kv => decide (kv.1 = k)) = none := by
        rw [List.find?_eq_none]
        intro x hx
        simpa using hnone x hx
      simp [this]
    · have hne : ¬ (id = k) := fun h2 => hk h2.symm
      simp only [hk, if_false, List.find?_cons, hne, decide_False, List.find?_nil]
      cases t.find? (fun kv => decide (kv.1 = k)) <;> rfl

/-- C26. Effect of `track` and `untrack`: on a tracker with one entry per id,
`track(id, pid)` leaves one entry per id, exactly one of them for `id`, whose
pid is the new pid; the entry of every other id is as before; the Store is
not touched; and `untrack(id)` on an id without entry leaves the tracker as
it is. -/
theorem track_overwrites (t : Tracker) (h : Tracker.WF t) (now : Nat) (id : String)
    (pid childProcess : Option Nat) :
    Tracker.WF (track t now id pid childProcess) ∧
    (getTrackedSessions (track t now id pid childProcess)).count id = 1 ∧
    Tracker.get (track t now id pid childProcess) id
      = some { pid := pid, process := childProcess, startTime := now } ∧
    (∀ k, k ≠ id → Tracker.get (track t now id pid childProcess) k = Tracker.get t k) ∧
    (∀ st : Store,
      (applyTrackerOp (t, st) (TrackerOp.track now id pid childProcess)).2 = st) ∧
    (∀ k, Tracker.get t k = none → untrack t k = t) ∧
    (∀ (st : Store) (k : String), (applyTrackerOp (t, st) (TrackerOp.untrack k)).2 = st) := by
  have hkeys := keys_set t id { pid := pid, process := childProcess, startTime := now }
  have hwf : Tracker.WF (track t now id pid childProcess) := by
    unfold Tracker.WF track
    unfold Tracker.WF at h
    unfold getTrackedSessions at hkeys
    rw [hkeys]
    split
    · exact h
    · rename_i hin
      rw [List.nodup_append]
      refine ⟨h, List.nodup_singleton id, ?_⟩
      intro a ha hb
      rw [List.mem_singleton] at hb
      exact hin (hb ▸ ha)
  have hmem : id ∈ getTrackedSessions (track t now id pid childProcess) := by
    unfold track
    rw [hkeys]
    split
    · assumption
    · simp
  refine ⟨hwf, List.count_eq_one_of_mem hwf hmem, ?_, ?_, fun _ => rfl, ?_, fun _ _ => rfl⟩
  · unfold track
    rw [get_set]
    simp
  · intro k hk
    unfold track
    rw [get_set]
    simp [hk]
  · intro k hk
    unfold untrack Tracker.delete
    apply List.filter_eq_self.mpr
    intro kv hkv
    unfold Tracker.get at hk
    have hnone : t.find? (fun kv => decide (kv.1 = k)) = none := by
      cases hf : t.find? (fun kv => decide (kv.1 = k)) with
      | none => rfl
      | some x => rw [hf] at hk; simp at hk
    have := (List.find?_eq_none.mp hnone) kv hkv
    simpa using this

/-- Witness for C26: `track` on an id that already has an entry. -/
theorem track_overwrites_witness :
    Tracker.get (track [("a", ⟨some 7, none, 0⟩), ("b", ⟨some 8, none, 1⟩)] 5 "a" (some 9) none)
        "a" = some { pid := some 9, process := none, startTime := 5 } ∧
    getTrackedSessions
      (track [("a", ⟨some 7, none, 0⟩), ("b", ⟨some 8, none, 1⟩)] 5 "a" (some 9) none)
      = ["a", "b"] :=
  ⟨(track_overwrites [("a", ⟨some 7, none, 0⟩), ("b", ⟨some 8, none, 1⟩)] (by decide) 5 "a"
    (some 9) none).2.2.1, by decide⟩

/-! ## The health-check timer -/

theorem start_inv (s : TimerState) (h : timerInv s) : timerInv (startHealthCheck s) := by
  unfold startHealthCheck
  rcases h with ⟨h1, h2⟩ | ⟨x, h1, h2⟩
  · rw [h1]
    exact Or.inr ⟨s.nextHandle, rfl, by simp [h2]⟩
  · rw [h1]
    exact Or.inr ⟨x, h1, h2⟩

theorem stop_inv (s : TimerState) (h : timerInv s) : timerInv (stopHealthCheck s) := by
  unfold stopHealthCheck
  rcases h with ⟨h1, h2⟩ | ⟨x, h1, h2⟩
  · rw [h1]
    exact Or.inl ⟨h1, h2⟩
  · rw [h1]
    exact Or.inl ⟨rfl, by simp [h2]⟩

theorem runTimer_inv (ops : List TimerOp) : ∀ s : TimerState, timerInv s →
    timerInv (runTimer s ops) := by
  induction ops with
  | nil => intro s h; exact h
  | cons op ops ih =>
    intro s h
    unfold runTimer
    rw [List.foldl_cons]
    apply ih
    cases op with
    | start => exact start_inv s h
    | stop => exact stop_inv s h

theorem start_of_set (s : TimerState) (h : s.healthCheckInterval ≠ none) :
    startHealthCheck s = s := by
  unfold startHealthCheck
  cases hc : s.healthCheckInterval with
  | none => exact absurd hc h
  | some x => rfl

theorem stop_of_null (s : TimerState) (h : s.healthCheckInterval = none) :
    stopHealthCheck s = s := by
  unfold stopHealthCheck
  rw [h]

theorem start_sets (s : TimerState) : (startHealthCheck s).healthCheckInterval ≠ none := by
  unfold startHealthCheck
  cases hc : s.healthCheckInterval with
  | none => simp
  | some x => simp [hc]

theorem stop_nulls (s : TimerState) : (stopHealthCheck s).healthCheckInterval = none := by
  unfold stopHealthCheck
  cases hc : s.healthCheckInterval with
  | none => simp [hc]
  | some x => simp

/-- C27. Idempotence of the health-check timer: after every sequence of
`startHealthCheck` and `stopHealthCheck` calls at most one interval is active,
with period 5000 ms and unreferenced; `startHealthCheck` with an interval
already set changes nothing, `stopHealthCheck` without one changes nothing,
and calling either twice is the same as calling it once. -/
theorem healthCheck_idempotent (ops : List TimerOp) (s : TimerState) :
    (runTimer TimerState.init ops).active.length ≤ 1 ∧
    (∀ i ∈ (runTimer TimerState.init ops).active, i.period = 5000 ∧ i.unref = true) ∧
    ((runTimer TimerState.init ops).healthCheckInterval = none ↔
      (runTimer TimerState.init ops).active = []) ∧
    (s.healthCheckInterval ≠ none → startHealthCheck s = s) ∧
    (s.healthCheckInterval = none → stopHealthCheck s = s) ∧
    startHealthCheck (startHealthCheck s) = startHealthCheck s ∧
    stopHealthCheck (stopHealthCheck s) = stopHealthCheck s := by
  have hinv := runTimer_inv ops TimerState.init (Or.inl ⟨rfl, rfl⟩)
  refine ⟨?_, ?_, ?_, start_of_set s, stop_of_null s,
    start_of_set _ (start_sets s), stop_of_null _ (stop_nulls s)⟩
  · rcases hinv with ⟨_, h2⟩ | ⟨x, _, h2⟩ <;> rw [h2] <;> simp
  · intro i hi
    rcases hinv with ⟨_, h2⟩ | ⟨x, _, h2⟩
    · rw [h2] at hi; cases hi
    · rw [h2, List.mem_singleton] at hi
      rw [hi]
      exact ⟨rfl, rfl⟩
  · rcases hinv with ⟨h1, h2⟩ | ⟨x, h1, h2⟩
    · simp [h1, h2]
    · simp [h1, h2]

/-! ## The recovery report -/

theorem includes_iff (s sub : String) : includes s sub = true ↔ sub.data <:+: s.data := by
  unfold includes
  rw [List.any_eq_true, List.infix_iff_prefix_suffix]
  constructor
  · rintro ⟨t, ht, hp⟩
    exact ⟨t, List.isPrefixOf_iff_prefix.mp hp, (List.mem_tails t s.data).mp ht⟩
  · rintro ⟨t, hp, ht⟩
    exact ⟨t, (List.mem_tails t s.data).mpr ht, List.isPrefixOf_iff_prefix.mpr hp⟩

theorem hasRecoveryLog_iff (session : Session) :
    hasRecoveryLog session = true ↔
      ∃ l ∈ session.logs, "Auto-recovered".data <:+: l.message.data := by
  unfold hasRecoveryLog
  rw [List.any_eq_true]
  constructor
  · rintro ⟨l, hl, h⟩
    rw [Bool.and_eq_true] at h
    exact ⟨l, hl, (includes_iff _ _).mp h.2⟩
  · rintro ⟨l, hl, h⟩
    refine ⟨l, hl, ?_⟩
    rw [Bool.and_eq_true]
    refine ⟨?_, (includes_iff _ _).mpr h⟩
    have hlen := h.length_le
    have hne : l.message.data ≠ [] := by
      intro h0
      rw [h0] at hlen
      simp at hlen
    have hmsg : ¬ (l.message = "") := by
      intro h0
      rw [h0] at hne
      exact hne rfl
    simp [hmsg]

theorem recoveryReport_fold (l : List Session) : ∀ acc : List Session,
    l.foldl recoveryReportStep acc = acc ++ l.filter hasRecoveryLog := by
  induction l with
  | nil => intro acc; simp
  | cons a l ih =>
    intro acc
    rw [List.foldl_cons, ih]
    unfold recoveryReportStep
    cases h : hasRecoveryLog a <;> simp [h, List.filter_cons]

/-- C22. Agreement of `getRecoveryReport` with `checkForRecovery`: the
function only reads the Store; its `healthy` and `stale` lists are those of
`checkForRecovery` on the same state, and `recovered` is the sub-list of the
healthy sessions that have a log entry whose message contains
`Auto-recovered`; so `recovered` lies within `healthy` and shares no session
with `stale`. -/
theorem getRecoveryReport_agrees (os : Nat → Bool) (st : Store) :
    (getRecoveryReport os st).healthy = (checkForRecovery os st).healthy ∧
    (getRecoveryReport os st).stale = (checkForRecovery os st).stale ∧
    (getRecoveryReport os st).recovered
      = (checkForRecovery os st).healthy.filter (fun s =>
          decide (∃ l ∈ s.logs, "Auto-recovered".data <:+: l.message.data)) ∧
    (getRecoveryReport os st).recovered.Sublist (getRecoveryReport os st).healthy ∧
    List.Disjoint (getRecoveryReport os st).recovered (getRecoveryReport os st).stale := by
  have hrec : (getRecoveryReport os st).recovered
      = (checkForRecovery os st).healthy.filter hasRecoveryLog := by
    unfold getRecoveryReport checkForRecovery
    simp only
    rw [recoveryReport_fold]
    rfl
  have hh : (getRecoveryReport os st).healthy = (checkForRecovery os st).healthy := rfl
  have hs : (getRecoveryReport os st).stale = (checkForRecovery os st).stale := rfl
  refine ⟨hh, hs, ?_, ?_, ?_⟩
  · rw [hrec]
    apply List.filter_congr
    intro s _
    by_cases h : hasRecoveryLog s = true
    · rw [h]
      exact (decide_eq_true ((hasRecoveryLog_iff s).mp h)).symm
    · have h2 : ¬ ∃ l ∈ s.logs, "Auto-recovered".data <:+: l.message.data :=
        fun hx => h ((hasRecoveryLog_iff s).mpr hx)
      rw [Bool.not_eq_true] at h
      rw [h]
      exact (decide_eq_false h2).symm
  · rw [hrec, hh]
    exact List.filter_sublist _
  · rw [hrec, hs, checkForRecovery_eq]
    simp only
    intro x hx hy
    have h1 := (List.mem_filter.mp (List.mem_filter.mp hx).1).2
    have h2 := (List.mem_filter.mp hy).2
    unfold isHealthy isPidAlive at h1
    unfold isStale at h2
    cases hf : pidFalsy x.pid <;> cases hp : probe os x.pid <;> simp [hf, hp] at h1 h2

/-! ## The Store after `markStaleSessionsStopped` -/

theorem mark_sessions (st : Store) (id : String) :
    (mark st id).sessions = st.sessions.map (fun s =>
      if s.id = id then
        { s with status := Status.stopped, pid := none,
                 logs := keepNewest st.logCap (s.logs ++ [{ message := markedMessage }]) }
      else s) := by
  unfold mark Store.addSessionLog Store.updateSessionStatus
  simp only [List.map_map]
  apply List.map_congr_left
  intro s _
  by_cases h : s.id = id <;> simp [h]

theorem foldl_mark_logCap (l : List Session) : ∀ st : Store,
    (l.foldl (fun st s => mark st s.id) st).logCap = st.logCap := by
  induction l with
  | nil => intro st; rfl
  | cons a l ih => intro st; rw [List.foldl_cons, ih, mark_logCap]

theorem mark_autoRecover (st : Store) (id : String) :
    (mark st id).autoRecover = st.autoRecover := rfl

theorem foldl_mark_autoRecover (l : List Session) : ∀ st : Store,
    (l.foldl (fun st s => mark st s.id) st).autoRecover = st.autoRecover := by
  induction l with
  | nil => intro st; rfl
  | cons a l ih => intro st; rw [List.foldl_cons, ih, mark_autoRecover]

theorem foldl_mark_sessions (l : List Session) (hl : (l.map Session.id).Nodup) :
    ∀ st : Store,
      (l.foldl (fun st s => mark st s.id) st).sessions = st.sessions.map (fun s =>
        if s.id ∈ l.map Session.id then
          { s with status := Status.stopped, pid := none,
                   logs := keepNewest st.logCap (s.logs ++ [{ message := markedMessage }]) }
        else s) := by
  induction l with
  | nil => intro st; simp
  | cons a l ih =>
    intro st
    rw [List.map_cons, List.nodup_cons] at hl
    rw [List.foldl_cons, ih hl.2, mark_sessions, List.map_map, mark_logCap]
    apply List.map_congr_left
    intro s _
    by_cases h : s.id = a.id
    · have hnot : ∀ x ∈ l, ¬ x.id = a.id := by
        intro x hx hxa
        exact hl.1 (hxa ▸ List.mem_map_of_mem Session.id hx)
      simp [h]
      intro x hx hxa
      exact absurd hxa (hnot x hx)
    · simp [h]

theorem eq_of_id_eq (st : Store) (h : st.WF) (a b : Session) (ha : a ∈ st.sessions)
    (hb : b ∈ st.sessions) (hid : a.id = b.id) : a = b := by
  have h1 := getSession_of_mem st h a ha
  have h2 := getSession_of_mem st h b hb
  rw [hid, h2] at h1
  exact (Option.some.inj h1).symm

theorem markStale_store (os : Nat → Bool) (st : Store) (h : st.WF) :
    (markStaleSessionsStopped os st).1
      = { sessions := st.sessions.map (markIfStale os st.logCap),
          autoRecover := st.autoRecover, logCap := st.logCap } := by
  rw [markStaleSessionsStopped_eq]
  simp only
  have h1 := foldl_mark_sessions (st.sessions.filter (isStale os)) (stale_ids_nodup os st h) st
  have h2 := foldl_mark_autoRecover (st.sessions.filter (isStale os)) st
  have h4 := foldl_mark_logCap (st.sessions.filter (isStale os)) st
  have h3 : st.sessions.map (fun s =>
        if s.id ∈ (st.sessions.filter (isStale os)).map Session.id then
          { s with status := Status.stopped, pid := none,
                   logs := keepNewest st.logCap (s.logs ++ [{ message := markedMessage }]) }
        else s) = st.sessions.map (markIfStale os st.logCap) := by
    apply List.map_congr_left
    intro s hs
    unfold markIfStale
    by_cases hst : isStale os s = true
    · have : s.id ∈ (st.sessions.filter (isStale os)).map Session.id :=
        List.mem_map_of_mem Session.id (List.mem_filter.mpr ⟨hs, hst⟩)
      simp [this, hst]
    · have : s.id ∉ (st.sessions.filter (isStale os)).map Session.id := by
        intro hin
        rcases List.mem_map.mp hin with ⟨x, hx, hxid⟩
        have hx2 := List.mem_filter.mp hx
        have := eq_of_id_eq st h x s hx2.1 hs hxid
        rw [this] at hx2
        exact hst hx2.2
      simp [this, hst]
  rw [h3] at h1
  cases hr : (st.sessions.filter (isStale os)).foldl (fun st s => mark st s.id) st with
  | mk sess ar cap =>
    rw [hr] at h1 h2 h4
    simp only at h1 h2 h4
    rw [h1, h2, h4]

theorem markIfStale_id (os : Nat → Bool) (cap : Nat) (s : Session) :
    (markIfStale os cap s).id = s.id := by
  unfold markIfStale
  split <;> rfl

theorem markIfStale_not_stale (os : Nat → Bool) (cap : Nat) (s : Session) :
    isStale os (markIfStale os cap s) = false := by
  unfold markIfStale
  by_cases h : isStale os s = true
  · rw [if_pos h]
    simp [isStale]
  · rw [if_neg h]
    simpa using h

theorem markIfStale_healthy (os : Nat → Bool) (cap : Nat) (s : Session) :
    isHealthy os (markIfStale os cap s) = isHealthy os s ∧
    (isHealthy os s = true → markIfStale os cap s = s) := by
  unfold markIfStale
  by_cases h : isStale os s = true
  · rw [if_pos h]
    have hnh : isHealthy os s = false := by
      unfold isStale at h
      unfold isHealthy isPidAlive
      cases hf : pidFalsy s.pid <;> cases hp : probe os s.pid <;> simp [hf, hp] at h ⊢
    rw [hnh]
    exact ⟨by simp [isHealthy], fun hx => by cases hx⟩
  · rw [if_neg h]
    exact ⟨rfl, fun _ => rfl⟩

theorem filter_stale_marked (os : Nat → Bool) (cap : Nat) (l : List Session) :
    (l.map (markIfStale os cap)).filter (isStale os) = [] := by
  rw [List.filter_eq_nil_iff]
  intro x hx
  rcases List.mem_map.mp hx with ⟨s, _, rfl⟩
  simp [markIfStale_not_stale]

theorem filter_healthy_marked (os : Nat → Bool) (cap : Nat) (l : List Session) :
    (l.map (markIfStale os cap)).filter (isHealthy os) = l.filter (isHealthy os) := by
  induction l with
  | nil => rfl
  | cons a l ih =>
    rw [List.map_cons, List.filter_cons, List.filter_cons, (markIfStale_healthy os cap a).1, ih]
    by_cases h : isHealthy os a = true
    · rw [if_pos h, if_pos h, (markIfStale_healthy os cap a).2 h]
    · rw [if_neg h, if_neg h]

/-- C30. Startup repair is idempotent and complete: right after
`markStaleSessionsStopped()`, `checkForRecovery()` reports no stale session
and the same healthy list as before; a second `markStaleSessionsStopped()`
returns the empty list and leaves the Store as it is; and a session that was
healthy or not running is left as it was. -/
theorem markStaleSessionsStopped_idempotent (os : Nat → Bool) (st : Store) (h : st.WF) :
    (checkForRecovery os (markStaleSessionsStopped os st).1).stale = [] ∧
    (checkForRecovery os (markStaleSessionsStopped os st).1).healthy
      = (checkForRecovery os st).healthy ∧
    markStaleSessionsStopped os (markStaleSessionsStopped os st).1
      = ((markStaleSessionsStopped os st).1, []) ∧
    (∀ s ∈ st.getAllSessionsList,
      ((pidFalsy s.pid = false ∧ probe os s.pid = true) ∨ s.status ≠ Status.running) →
      (markStaleSessionsStopped os st).1.getSession s.id = some s ∧
      (markStaleSessionsStopped os (markStaleSessionsStopped os st).1).1.getSession s.id
        = some s) := by
  have hstale : (checkForRecovery os (markStaleSessionsStopped os st).1).stale = [] := by
    rw [checkForRecovery_eq, markStale_store os st h]
    exact filter_stale_marked os st.logCap st.sessions
  have hsecond : markStaleSessionsStopped os (markStaleSessionsStopped os st).1
      = ((markStaleSessionsStopped os st).1, []) := by
    unfold markStaleSessionsStopped at hstale ⊢
    rw [hstale]
    rfl
  refine ⟨hstale, ?_, hsecond, ?_⟩
  · rw [checkForRecovery_eq, checkForRecovery_eq, markStale_store os st h]
    exact filter_healthy_marked os st.logCap st.sessions
  · intro s hs hcond
    have hfirst : (markStaleSessionsStopped os st).1.getSession s.id = some s := by
      rw [markStale_store os st h]
      unfold Store.getSession
      simp only
      rw [find?_map_id _ (markIfStale_id os st.logCap)]
      have := getSession_of_mem st h s hs
      unfold Store.getSession at this
      rw [this]
      have hns : isStale os s = false := by
        unfold isStale
        rcases hcond with ⟨hf, hp⟩ | hne
        · simp [hf, hp]
        · simp [hne]
      simp [markIfStale, hns]
    rw [hsecond]
    exact ⟨hfirst, hfirst⟩

/-- Witness for C30: one healthy session, one with a dead pid, one stopped. -/
theorem markStaleSessionsStopped_idempotent_witness :
    (markStaleSessionsStopped (fun p => p == 7)
      (markStaleSessionsStopped (fun p => p == 7)
        ⟨[⟨"a", "A", "w", Status.running, some 7, []⟩,
          ⟨"b", "B", "w", Status.running, some 4242, []⟩,
          ⟨"c", "C", "w", Status.stopped, none, []⟩], false, 100⟩).1).2 = [] := by
  have h := (markStaleSessionsStopped_idempotent (fun p => p == 7)
      ⟨[⟨"a", "A", "w", Status.running, some 7, []⟩,
        ⟨"b", "B", "w", Status.running, some 4242, []⟩,
        ⟨"c", "C", "w", Status.stopped, none, []⟩], false, 100⟩ (by decide)).2.2.1
  rw [h]

/-! ## The frame of the sweep -/

theorem dead_key_iff (os : Nat → Bool) (t : Tracker) (h : Tracker.WF t) (id : String) :
    id ∈ (t.filter (fun kv => !entryAlive os kv)).map Prod.fst ↔
      ∃ e, Tracker.get t id = some e ∧ isAlive os t id = false := by
  constructor
  · intro hin
    rcases List.mem_map.mp hin with ⟨kv, hkv, rfl⟩
    have hkv2 := List.mem_filter.mp hkv
    refine ⟨kv.2, tracker_get_of_mem t h kv hkv2.1, ?_⟩
    rw [isAlive_eq_entryAlive os t h kv hkv2.1]
    simpa using hkv2.2
  · rintro ⟨e, hget, hdead⟩
    have hm := tracker_mem_of_get t id e hget
    rw [isAlive_eq_entryAlive os t h (id, e) hm] at hdead
    exact List.mem_map.mpr ⟨(id, e), List.mem_filter.mpr ⟨hm, by simp [hdead]⟩, rfl⟩

/-- C29. Frame of the sweep: `checkAll()` leaves as it was every session whose
id is not tracked and every session whose tracked process is alive; a session
it changes is one that is tracked with a failing probe and was running, and
what it gets is one status write, to stopped with pid null, and one log
entry: its log becomes the old log with that one line appended, cut to the
bound of the Store, so it is an end piece of the old log followed by the
line. -/
theorem checkAll_frame (os : Nat → Bool) (t : Tracker) (st : Store) (h : Tracker.WF t)
    (id : String) :
    (id ∉ getTrackedSessions t → (checkAll os t st).store.getSession id = st.getSession id) ∧
    (isAlive os t id = true → (checkAll os t st).store.getSession id = st.getSession id) ∧
    ((checkAll os t st).store.getSession id = st.getSession id ∨
      ∃ e sess, Tracker.get t id = some e ∧ isAlive os t id = false ∧
        st.getSession id = some sess ∧ sess.status = Status.running ∧
        (checkAll os t st).store.getSession id
          = some { sess with status := Status.stopped, pid := none,
                             logs := keepNewest st.logCap
                               (sess.logs ++ [{ message := exitMessage e.pid }]) } ∧
        keepNewest st.logCap (sess.logs ++ [{ message := exitMessage e.pid }])
          <:+ sess.logs ++ [{ message := exitMessage e.pid }] ∧
        (0 < st.logCap →
          keepNewest st.logCap (sess.logs ++ [{ message := exitMessage e.pid }])
            = sess.logs.drop (sess.logs.length + 1 - st.logCap)
                ++ [{ message := exitMessage e.pid }])) := by
  have hstore : (checkAll os t st).store
      = (t.filter (fun kv => !entryAlive os kv)).foldl repair st := by
    rw [checkAll_eq os t st h]
  have hother : id ∉ (t.filter (fun kv => !entryAlive os kv)).map Prod.fst →
      (checkAll os t st).store.getSession id = st.getSession id := by
    intro hnot
    rw [hstore]
    exact foldl_repair_other _ st id hnot
  refine ⟨?_, ?_, ?_⟩
  · intro hnt
    apply hother
    intro hin
    rcases (dead_key_iff os t h id).mp hin with ⟨e, hget, _⟩
    exact hnt (List.mem_map_of_mem Prod.fst (tracker_mem_of_get t id e hget))
  · intro halive
    apply hother
    intro hin
    rcases (dead_key_iff os t h id).mp hin with ⟨e, _, hdead⟩
    rw [halive] at hdead
    exact absurd hdead (by decide)
  · by_cases hin : id ∈ (t.filter (fun kv => !entryAlive os kv)).map Prod.fst
    · rcases (dead_key_iff os t h id).mp hin with ⟨e, hget, hdead⟩
      cases hs : st.getSession id with
      | none =>
        left
        exact sweep_keeps_missing os id t _ hs
      | some sess =>
        by_cases hr : sess.status = Status.running
        · right
          refine ⟨e, sess, hget, hdead, rfl, hr, ?_, List.drop_suffix _ _,
            fun hcap => keepNewest_append_one _ _ _ hcap⟩
          rw [hstore]
          have hm := tracker_mem_of_get t id e hget
          have hdead2 : entryAlive os (id, e) = false := by
            rw [← isAlive_eq_entryAlive os t h (id, e) hm]
            exact hdead
          have hmd : (id, e) ∈ t.filter (fun kv => !entryAlive os kv) :=
            List.mem_filter.mpr ⟨hm, by simp [hdead2]⟩
          exact foldl_repair_running _ (wf_filter t _ h) st (id, e) hmd sess hs hr
        · left
          exact sweep_keeps_not_running os id sess hr t _ hs
    · left
      rw [hother hin]

/-- Witness for C29: a live tracked session, a dead tracked one and an
untracked one, all running. -/
theorem checkAll_frame_witness :
    (checkAll (fun p => p == 7) [("a", ⟨some 7, none, 0⟩), ("b", ⟨some 4242, none, 1⟩)]
      ⟨[⟨"a", "A", "w", Status.running, some 7, []⟩,
        ⟨"b", "B", "w", Status.running, some 4242, []⟩,
        ⟨"c", "C", "w", Status.running, some 9, []⟩], false, 100⟩).store.getSession "c"
      = some ⟨"c", "C", "w", Status.running, some 9, []⟩ := by
  have h := (checkAll_frame (fun p => p == 7)
    [("a", ⟨some 7, none, 0⟩), ("b", ⟨some 4242, none, 1⟩)]
    ⟨[⟨"a", "A", "w", Status.running, some 7, []⟩,
      ⟨"b", "B", "w", Status.running, some 4242, []⟩,
      ⟨"c", "C", "w", Status.running, some 9, []⟩], false, 100⟩ (by decide) "c").1 (by decide)
  rw [h]
  decide

/-! ## Marking before relaunching -/

theorem noStaleRunning_addSessionLog (os : Nat → Bool) (st cur : Store) (id msg : String)
    (h : noStaleRunning os st cur) : noStaleRunning os st (cur.addSessionLog id msg) := by
  intro s hs hr
  unfold Store.addSessionLog at hs
  rcases List.mem_map.mp hs with ⟨s0, hs0, rfl⟩
  by_cases hid : s0.id = id
  · simp only [hid, if_true] at hr ⊢
    exact h s0 hs0 hr
  · simp only [hid, if_false] at hr ⊢
    exact h s0 hs0 hr

theorem noStaleRunning_init (os : Nat → Bool) (st : Store) (hwf : st.WF) :
    noStaleRunning os st (recoverInit os st).store := by
  intro s hs hr
  unfold recoverInit at hs
  simp only at hs
  rw [markStale_store os st hwf] at hs
  rcases List.mem_map.mp hs with ⟨s0, _, rfl⟩
  have hns : isStale os s0 = false := by
    by_cases hst : isStale os s0 = true
    · unfold markIfStale at hr
      rw [if_pos hst] at hr
      cases hr
    · simpa using hst
  have hsame : markIfStale os st.logCap s0 = s0 := by
    unfold markIfStale
    simp [hns]
  rw [hsame] at hr ⊢
  unfold stalePids
  rw [checkForRecovery_eq]
  intro hin
  rcases List.mem_map.mp hin with ⟨x, hx, hxp⟩
  have hx2 := (List.mem_filter.mp hx).2
  unfold isStale at hns hx2
  rw [hxp] at hx2
  simp only [hr, decide_True, Bool.true_and] at hns
  rw [Bool.and_eq_true] at hx2
  rw [hx2.2] at hns
  cases hns

theorem noStaleRunning_fold (os : Nat → Bool) (launchSession : Launcher) (st : Store)
    (hl : ∀ st0 k, noStaleRunning os st st0 → noStaleRunning os st (launchSession st0 k).2)
    (l : List String) : ∀ s0 : RecoveryState, noStaleRunning os st s0.store →
      noStaleRunning os st (l.foldl (recoverStep launchSession) s0).store := by
  induction l with
  | nil => intro s0 h; exact h
  | cons a l ih =>
    intro s0 h
    rw [List.foldl_cons]
    apply ih
    cases hg : s0.store.getSession a with
    | none => rw [recoverStep_none _ _ _ hg]; exact h
    | some x =>
      rw [recoverStep_some _ _ _ (by simp [hg])]
      apply noStaleRunning_addSessionLog
      unfold launchOut
      apply hl
      exact noStaleRunning_addSessionLog os st _ _ _ h

/-- C21, as stated, fails: with two stale sessions and a launcher that
relaunches `S1` under its old pid 200 and records it in the Store, the Store
handed to the launcher for `S2` shows `S1` running with pid 200, a pid that
was found dead at entry. -/
theorem recoverSessions_later_call_sees_stale_pid :
    (checkForRecovery (fun _ => false) twoStaleStore).stale.map Session.id = ["S1", "S2"] ∧
    stalePids (fun _ => false) twoStaleStore = [some 200, some 300] ∧
    (recoverSessions (fun _ => false) reusingLauncher twoStaleStore).calls.map Prod.fst
      = ["S1", "S2"] ∧
    statusPid (callStore (fun _ => false) reusingLauncher twoStaleStore ["S1"] "S2") "S1"
      = some (Status.running, some 200) ∧
    ¬ noStaleRunning (fun _ => false) twoStaleStore
        (callStore (fun _ => false) reusingLauncher twoStaleStore ["S1"] "S2") := by
  decide

/-- C21, amended. With auto-recover on, the relaunch loop of `recoverSessions`
starts from the Store in which every stale session is already stopped with
pid null, so at the first launcher call no session is running with a pid
that was found dead or missing at entry; between launcher calls the loop only
appends log entries, so the same holds at every later launcher call provided
no launcher call itself leaves a session running with such a pid. -/
theorem recoverSessions_marks_first (os : Nat → Bool) (launchSession : Launcher) (st : Store)
    (hauto : st.autoRecover = true) (hwf : st.WF) :
    recoverSessions os launchSession st
      = ((checkForRecovery os st).stale.map Session.id).foldl (recoverStep launchSession)
          (recoverInit os st) ∧
    (∀ s ∈ (checkForRecovery os st).stale,
      statusPid (recoverInit os st).store s.id = some (Status.stopped, none)) ∧
    noStaleRunning os st (recoverInit os st).store ∧
    (∀ id, noStaleRunning os st (callStore os launchSession st [] id)) ∧
    (∀ pre id,
      (∀ st0 k, noStaleRunning os st st0 → noStaleRunning os st (launchSession st0 k).2) →
      noStaleRunning os st (callStore os launchSession st pre id)) := by
  have hinit := noStaleRunning_init os st hwf
  refine ⟨?_, ?_, hinit, ?_, ?_⟩
  · rw [recoverSessions_on os launchSession st hauto, checkForRecovery_eq]
  · intro s hs
    rw [checkForRecovery_eq] at hs
    simp only at hs
    have hm := (List.mem_filter.mp hs).1
    unfold recoverInit statusPid
    simp only
    rw [markStaleSessionsStopped_eq]
    simp only
    rw [foldl_mark_self _ (stale_ids_nodup os st hwf) st s hs (getSession_of_mem st hwf s hm)]
    rfl
  · intro id
    unfold callStore
    exact noStaleRunning_addSessionLog os st _ _ _ hinit
  · intro pre id hl
    unfold callStore
    apply noStaleRunning_addSessionLog
    exact noStaleRunning_fold os launchSession st hl pre _ hinit

/-- Witness for C21 (amended): the scenario of the spec; the launcher writes
pid 9001, which was not among the pids found dead. -/
theorem recoverSessions_marks_first_witness :
    noStaleRunning scenarioOs scenarioStore
      (callStore scenarioOs writingLauncher scenarioStore [] "S2") :=
  (recoverSessions_marks_first scenarioOs writingLauncher scenarioStore rfl
    (by decide)).2.2.2.1 "S2"

/-! ## The status writes of the core -/

theorem onlyStops_refl (st : Store) : onlyStops st st := fun _ => Or.inl rfl

theorem onlyStops_trans (a b c : Store) (h1 : onlyStops a b) (h2 : onlyStops b c) :
    onlyStops a c := by
  intro k
  rcases h1 k with e1 | ⟨p, hp1, hp2⟩
  · rcases h2 k with e2 | ⟨q, hq1, hq2⟩
    · left; rw [e2, e1]
    · right; exact ⟨q, e1 ▸ hq1, hq2⟩
  · rcases h2 k with e2 | ⟨q, hq1, hq2⟩
    · right; exact ⟨p, hp1, e2 ▸ hp2⟩
    · rw [hp2] at hq1
      cases hq1

theorem repair_onlyStops (st : Store) (kv : String × TrackedEntry) :
    onlyStops st (repair st kv) := by
  intro k
  by_cases hk : k = kv.1
  · subst hk
    cases hs : st.getSession kv.1 with
    | none =>
      left
      unfold repair
      rw [hs]
    | some sess =>
      by_cases hr : sess.status = Status.running
      · right
        refine ⟨sess.pid, ?_, ?_⟩
        · unfold statusPid
          rw [hs]
          simp [hr]
        · unfold statusPid
          rw [repair_getSession_running st kv sess hs hr]
          rfl
      · left
        rw [repair_of_not_running st kv sess hs hr]
  · left
    unfold statusPid
    rw [repair_getSession_ne _ _ _ hk]

theorem checkAllStep_shape (os : Nat → Bool) (s : SweepState) (kv : String × TrackedEntry) :
    (checkAllStep os s kv).store = s.store ∨
    ∃ session, s.store.getSession kv.1 = some session ∧ session.status = Status.running ∧
      (checkAllStep os s kv).store
        = (s.store.updateSessionStatus kv.1 Status.stopped none).addSessionLog kv.1
            (exitMessage kv.2.pid) := by
  rw [checkAllStep_eq]
  split
  · exact Or.inl rfl
  · show repair s.store kv = s.store ∨ _
    cases hs : s.store.getSession kv.1 with
    | none =>
      left
      unfold repair
      rw [hs]
    | some sess =>
      by_cases hr : sess.status = Status.running
      · right
        refine ⟨sess, rfl, hr, ?_⟩
        show repair s.store kv = _
        unfold repair
        rw [hs]
        simp [hr]
      · left
        exact repair_of_not_running s.store kv sess hs hr

theorem sweep_onlyStops (os : Nat → Bool) (l : Tracker) : ∀ s : SweepState,
    onlyStops s.store (l.foldl (checkAllStep os) s).store := by
  induction l with
  | nil => intro s; exact onlyStops_refl _
  | cons kv l ih =>
    intro s
    rw [List.foldl_cons]
    refine onlyStops_trans _ _ _ ?_ (ih _)
    rw [checkAllStep_eq]
    split
    · exact onlyStops_refl _
    · exact repair_onlyStops s.store kv

theorem markStale_onlyStops (os : Nat → Bool) (st : Store) (hwf : st.WF) :
    onlyStops st (markStaleSessionsStopped os st).1 := by
  intro k
  rw [markStale_store os st hwf]
  unfold statusPid Store.getSession
  simp only
  rw [find?_map_id _ (markIfStale_id os st.logCap)]
  cases hs : st.sessions.find? (fun s => decide (s.id = k)) with
  | none => left; rfl
  | some sess =>
    by_cases hst : isStale os sess = true
    · right
      refine ⟨sess.pid, ?_, ?_⟩
      · have hr : sess.status = Status.running := by
          unfold isStale at hst
          rw [Bool.and_eq_true] at hst
          simpa using hst.1
        simp [hr]
      · simp [markIfStale, hst]
    · left
      simp [markIfStale, hst]

theorem recover_fold_silent (launchSession : Launcher)
    (hsilent : ∀ st0 id k, statusPid (launchSession st0 id).2 k = statusPid st0 k)
    (l : List String) : ∀ (s0 : RecoveryState) (k : String),
      statusPid (l.foldl (recoverStep launchSession) s0).store k = statusPid s0.store k := by
  induction l with
  | nil => intro s0 k; rfl
  | cons a l ih =>
    intro s0 k
    rw [List.foldl_cons, ih]
    cases hg : s0.store.getSession a with
    | none => rw [recoverStep_none _ _ _ hg]
    | some x =>
      rw [recoverStep_some _ _ _ (by simp [hg])]
      simp only [statusPid_addSessionLog]
      unfold launchOut
      rw [hsilent, statusPid_addSessionLog]

/-- C23. The core never targets error: the only status write in `checkAll`,
`markStaleSessionsStopped` and `recoverSessions` is
`updateSessionStatus(id, 'stopped', null)`, made for a session found running.
Across each of the three functions the status and pid shown for an id either
stay as they were or go from running to stopped with pid null (for
`recoverSessions`, with a launcher that itself writes no status or pid); an
iteration of the sweep either leaves the Store alone or makes that one write
and one log entry; and an iteration of the relaunch loop hands the launcher
the statuses it found and keeps the statuses the launcher left. -/
theorem core_only_stops (os : Nat → Bool) (launchSession : Launcher) (t : Tracker)
    (st : Store) (hwf : st.WF) :
    onlyStops st (checkAll os t st).store ∧
    (∀ (s : SweepState) (kv : String × TrackedEntry),
      (checkAllStep os s kv).store = s.store ∨
      ∃ session, s.store.getSession kv.1 = some session ∧ session.status = Status.running ∧
        (checkAllStep os s kv).store
          = (s.store.updateSessionStatus kv.1 Status.stopped none).addSessionLog kv.1
              (exitMessage kv.2.pid)) ∧
    onlyStops st (markStaleSessionsStopped os st).1 ∧
    (∀ s ∈ (checkForRecovery os st).stale, s.status = Status.running) ∧
    (∀ (acc : Store × List String) (session : Session),
      (markStaleStep acc session).1
        = (acc.1.updateSessionStatus session.id Status.stopped none).addSessionLog session.id
            markedMessage) ∧
    ((∀ st0 id k, statusPid (launchSession st0 id).2 k = statusPid st0 k) →
      onlyStops st (recoverSessions os launchSession st).store) ∧
    (∀ (s : RecoveryState) (k x : String),
      statusPid (s.store.addSessionLog k "Auto-recovering session...") x = statusPid s.store x ∧
      (s.store.getSession k = none → recoverStep launchSession s k = s) ∧
      ((s.store.getSession k).isSome = true →
        statusPid (recoverStep launchSession s k).store x
          = statusPid (launchOut launchSession s k).2 x)) := by
  refine ⟨sweep_onlyStops os t _, checkAllStep_shape os, markStale_onlyStops os st hwf, ?_,
    fun _ _ => rfl, ?_, ?_⟩
  · intro s hs
    rw [checkForRecovery_eq] at hs
    have := (List.mem_filter.mp hs).2
    unfold isStale at this
    rw [Bool.and_eq_true] at this
    simpa using this.1
  · intro hsilent
    by_cases hauto : st.autoRecover = true
    · rw [recoverSessions_on os launchSession st hauto]
      intro k
      rw [recover_fold_silent launchSession hsilent]
      exact markStale_onlyStops os st hwf k
    · have : (recoverSessions os launchSession st).store = st := by
        unfold recoverSessions
        simp [hauto]
      rw [this]
      exact onlyStops_refl st
  · intro s k x
    refine ⟨statusPid_addSessionLog _ _ _ _, recoverStep_none launchSession s k, ?_⟩
    intro hsome
    rw [recoverStep_some _ _ _ hsome]
    simp only [statusPid_addSessionLog]

/-- Witness for C23: the sweep in the scenario of the spec stops the session
with the dead pid and changes no other status. -/
theorem core_only_stops_witness :
    onlyStops scenarioStore
      (checkAll scenarioOs [("S1", ⟨some 100, none, 0⟩), ("S2", ⟨some 200, none, 1⟩)]
        scenarioStore).store :=
  (core_only_stops scenarioOs replyingLauncher
    [("S1", ⟨some 100, none, 0⟩), ("S2", ⟨some 200, none, 1⟩)] scenarioStore (by decide)).1

/-! ## The log entries of the relaunch loop -/

theorem addSessionLog_self (st : Store) (id msg : String) (sess : Session)
    (h : st.getSession id = some sess) :
    (st.addSessionLog id msg).getSession id
      = some { sess with logs := keepNewest st.logCap (sess.logs ++ [{ message := msg }]) } := by
  rw [getSession_addSessionLog, h]
  simp [getSession_id st id sess h]

theorem infix_failedMessage (e : String) : e.data <:+: (failedMessage (some e)).data := by
  refine ⟨"Auto-recovery failed: ".data, [], ?_⟩
  simp [failedMessage, resultErrorText, String.data_append]

theorem infix_recoveredMessage (p : Nat) :
    (toString p).data <:+: (recoveredMessage (some p)).data := by
  refine ⟨"Auto-recovered successfully (new PID: ".data, ")".data, ?_⟩
  simp [recoveredMessage, resultPidText, String.data_append]

/-- C28. A relaunch failure is recorded and not fatal. With auto-recover on:
the failure line contains the error and the success line the new pid; a launch
that reports failure puts the id in `failed` and not in `recovered`; an
iteration for an existing session first appends the
`Auto-recovering session...` line, which is the newest line of the session
when the launcher is called, and after the launcher has returned appends the
outcome line, which is the newest line of the session after the iteration
(the log is bounded by the Store, oldest lines go first); whether a stale id
is attempted depends only on its session existing when its turn comes, not on
how earlier launches ended, so with a launcher that removes no session every
stale id is attempted. -/
theorem recoverSessions_failure_recorded (os : Nat → Bool) (launchSession : Launcher)
    (st : Store) (hauto : st.autoRecover = true) (hwf : st.WF) :
    (∀ e : String, e.data <:+: (failedMessage (some e)).data) ∧
    (∀ p : Nat, (toString p).data <:+: (recoveredMessage (some p)).data) ∧
    (∀ id r, (id, r) ∈ (recoverSessions os launchSession st).calls → r.success = false →
      id ∈ (recoverSessions os launchSession st).failed ∧
      id ∉ (recoverSessions os launchSession st).recovered) ∧
    (∀ (s : RecoveryState) (k : String) (sess : Session), s.store.getSession k = some sess →
      launchOut launchSession s k
        = launchSession (s.store.addSessionLog k "Auto-recovering session...") k ∧
      (s.store.addSessionLog k "Auto-recovering session...").getSession k
        = some { sess with logs := (keepNewest s.store.logCap
                   (sess.logs ++ [{ message := "Auto-recovering session..." }])) } ∧
      (0 < s.store.logCap →
        (keepNewest s.store.logCap
          (sess.logs ++ [{ message := "Auto-recovering session..." }])).getLast?
          = some { message := "Auto-recovering session..." }) ∧
      (recoverStep launchSession s k).store
        = (launchOut launchSession s k).2.addSessionLog k
            (outcomeMessage (launchOut launchSession s k).1) ∧
      (∀ sess2, (launchOut launchSession s k).2.getSession k = some sess2 →
        (recoverStep launchSession s k).store.getSession k
          = some { sess2 with logs := (keepNewest (launchOut launchSession s k).2.logCap
                     (sess2.logs
                       ++ [{ message := outcomeMessage (launchOut launchSession s k).1 }])) } ∧
        (0 < (launchOut launchSession s k).2.logCap →
          (keepNewest (launchOut launchSession s k).2.logCap
            (sess2.logs
              ++ [{ message := outcomeMessage (launchOut launchSession s k).1 }])).getLast?
            = some { message := outcomeMessage (launchOut launchSession s k).1 })) ∧
      (recoverStep launchSession s k).calls
        = s.calls ++ [(k, (launchOut launchSession s k).1)] ∧
      (recoverStep launchSession s k).failed
        = s.failed ++ (if (launchOut launchSession s k).1.success then [] else [k])) ∧
    (∀ pre id post, (checkForRecovery os st).stale.map Session.id = pre ++ id :: post →
      (id ∈ (recoverSessions os launchSession st).calls.map Prod.fst ↔
        ((pre.foldl (recoverStep launchSession) (recoverInit os st)).store.getSession
          id).isSome = true)) ∧
    ((∀ st0 id k, (st0.getSession k).isSome = true →
        ((launchSession st0 id).2.getSession k).isSome = true) →
      (recoverSessions os launchSession st).calls.map Prod.fst
        = (checkForRecovery os st).stale.map Session.id) := by
  have hnd := stale_ids_nodup os st hwf
  refine ⟨infix_failedMessage, infix_recoveredMessage, ?_, ?_, ?_, ?_⟩
  · intro id r hcall hfail
    rw [recoverSessions_on os launchSession st hauto] at hcall ⊢
    obtain ⟨new, h1, h2, h3, h4⟩ := recover_fold_calls launchSession
      ((st.sessions.filter (isStale os)).map Session.id) (recoverInit os st)
    have hc0 : (recoverInit os st).calls = [] := rfl
    have hr0 : (recoverInit os st).recovered = [] := rfl
    have hf0 : (recoverInit os st).failed = [] := rfl
    rw [hc0, List.nil_append] at h1
    rw [hr0, List.nil_append] at h2
    rw [hf0, List.nil_append] at h3
    have hnew : (id, r) ∈ new := h1 ▸ hcall
    constructor
    · rw [h3]
      exact List.mem_map.mpr ⟨(id, r), List.mem_filter.mpr ⟨hnew, by simp [hfail]⟩, rfl⟩
    · rw [h2]
      intro hin
      rcases List.mem_map.mp hin with ⟨c, hc, hcid⟩
      have hc2 := List.mem_filter.mp hc
      rcases c with ⟨a, b⟩
      simp only at hcid
      have hb : (id, b) ∈ new := hcid ▸ hc2.1
      have := eq_of_nodup_fst new (hnd.sublist h4) id b r hb hnew
      subst this
      have h5 := hc2.2
      simp only at h5
      rw [hfail] at h5
      cases h5
  · intro s k sess hsess
    have hsome : (s.store.getSession k).isSome = true := by simp [hsess]
    have hstore : (recoverStep launchSession s k).store
        = (launchOut launchSession s k).2.addSessionLog k
            (outcomeMessage (launchOut launchSession s k).1) := by
      rw [recoverStep_some _ _ _ hsome]
      unfold outcomeMessage
      rfl
    refine ⟨rfl, addSessionLog_self _ _ _ _ hsess,
      fun hcap => keepNewest_last _ _ _ hcap, hstore, ?_, ?_, ?_⟩
    · intro sess2 h2
      refine ⟨?_, fun hcap => keepNewest_last _ _ _ hcap⟩
      rw [hstore]
      exact addSessionLog_self _ _ _ _ h2
    · rw [recoverStep_some _ _ _ hsome]
    · rw [recoverStep_some _ _ _ hsome]
  · intro pre id post hsplit
    rw [recoverSessions_on os launchSession st hauto]
    rw [checkForRecovery_eq] at hsplit
    simp only at hsplit
    rw [hsplit]
    exact recover_fold_turn launchSession _ rfl pre post id (hsplit ▸ hnd)
  · intro hkeep
    rw [recoverSessions_on os launchSession st hauto, checkForRecovery_eq]
    simp only
    rw [recover_fold_all launchSession hkeep _ _
      (fun k hkm => recoverInit_isSome os st hwf k hkm)]
    rfl

/-- Witness for C28: three stale sessions, the launch of `S2` fails; all three
are attempted and the log of `S2` ends with the failure line. -/
theorem recoverSessions_failure_recorded_witness :
    "S2" ∈ (recoverSessions (fun _ => false) mixedLauncher threeStaleStore).failed ∧
    "S2" ∉ (recoverSessions (fun _ => false) mixedLauncher threeStaleStore).recovered ∧
    (recoverSessions (fun _ => false) mixedLauncher threeStaleStore).calls.map Prod.fst
      = ["S1", "S2", "S3"] ∧
    ((recoverSessions (fun _ => false) mixedLauncher threeStaleStore).store.getSession
      "S2").map Session.logs
      = some [⟨markedMessage⟩, ⟨"Auto-recovering session..."⟩,
          ⟨"Auto-recovery failed: spawn failed"⟩] :=
  ⟨((recoverSessions_failure_recorded (fun _ => false) mixedLauncher threeStaleStore rfl
      (by decide)).2.2.1 "S2" { success := false, pid := none, error := some "spawn failed" }
      (by decide) rfl).1,
   ((recoverSessions_failure_recorded (fun _ => false) mixedLauncher threeStaleStore rfl
      (by decide)).2.2.1 "S2" { success := false, pid := none, error := some "spawn failed" }
      (by decide) rfl).2,
   by decide, by decide⟩

end Myrlin
